import Mathlib

/-!
Verification development for the wireguard-gui configuration engine.

The Rust sources (src/config.rs, src/tunnel.rs, src/utils.rs) are embedded
shallowly: strings are modelled as lists of characters, external collaborators
(the ipnetwork address syntax crate, the key tool, the tunnel status and
activation tools, OS interface enumeration) are modelled as oracle parameters,
and fallible code returns Except.  Rust trim is modelled with the ASCII
whitespace predicate, which agrees with it on all ASCII inputs.
-/

deriving instance DecidableEq for Except

namespace WgGui

/-- Strings are modelled as lists of characters. -/
abbrev Str := List Char

/-- The single-quote character, written by code point. -/
def sq : Char := Char.ofNat 39

/-- The backtick character, written by code point. -/
def bq : Char := Char.ofNat 96

/-- Whitespace predicate used by Rust str::trim (ASCII fragment). -/
def wsp (c : Char) : Bool := c.isWhitespace

/-- Rust str::trim_start. -/
def trimStart (s : Str) : Str := s.dropWhile wsp

/-- Rust str::trim_end. -/
def trimEnd (s : Str) : Str := (s.reverse.dropWhile wsp).reverse

/-- Rust str::trim. -/
def trimStr (s : Str) : Str := trimEnd (trimStart s)

/-- Rust str::split on a single character separator: keeps empty segments,
    always returns one more segment than there are separators. -/
def splitCh (sep : Char) : Str → List Str
  | [] => [[]]
  | c :: rest =>
    let r := splitCh sep rest
    if c = sep then [] :: r
    else
      match r with
      | h :: t => (c :: h) :: t
      | [] => [[c]]

/-- Rust str::split_once on a single character separator. -/
def splitOnce (sep : Char) : Str → Option (Str × Str)
  | [] => none
  | c :: rest =>
    if c = sep then some ([], rest)
    else (splitOnce sep rest).map (fun p => (c :: p.1, p.2))

/-- Rust str::strip_prefix for a single character. -/
def stripChPre (c : Char) : Str → Option Str
  | [] => none
  | d :: rest => if d = c then some rest else none

/-- Rust str::strip_suffix for a single character. -/
def stripChSuf (c : Char) (s : Str) : Option Str :=
  match stripChPre c s.reverse with
  | some r => some r.reverse
  | none => none

/-- Rust str::strip_prefix for a string pattern. -/
def stripPre : Str → Str → Option Str
  | [], s => some s
  | _ :: _, [] => none
  | p :: ps, c :: cs => if c = p then stripPre ps cs else none

/-- Rust str::starts_with for a string pattern. -/
def startsWithS (p s : Str) : Bool := (stripPre p s).isSome

/-- Rust str::starts_with for a single character. -/
def startsWithCh (c : Char) : Str → Bool
  | [] => false
  | d :: _ => d = c

/-- Rust str::contains for a string pattern (substring search). -/
def containsSub (pat : Str) : Str → Bool
  | [] => pat.isEmpty
  | c :: rest => startsWithS pat (c :: rest) || containsSub pat rest

/-- Helper for replaceSub: walks the haystack; a positive skip counter means
    we are inside an already-replaced region. -/
def replaceGo (pat rep : Str) : Nat → Str → Str
  | _, [] => []
  | 0, c :: rest =>
    if startsWithS pat (c :: rest) then rep ++ replaceGo pat rep (pat.length - 1) rest
    else c :: replaceGo pat rep 0 rest
  | k + 1, _ :: rest => replaceGo pat rep k rest

/-- Rust String::replace: replaces every non-overlapping occurrence of pat,
    leftmost first.  An empty pattern matches at every boundary, as in Rust. -/
def replaceSub (pat rep s : Str) : Str :=
  if pat.isEmpty then rep ++ s.flatMap (fun c => c :: rep)
  else replaceGo pat rep 0 s

/-- List concat-map used to model Rust iterator flattening and loops that
    append one rendered chunk per element. -/
def catMap (f : α → List β) : List α → List β
  | [] => []
  | a :: l => f a ++ catMap f l

end WgGui

namespace WgGui

/-! ## Data model (src/config.rs) -/

/-- Defines the VPN settings for the local node (struct Interface). -/
structure Interface where
  name : Option Str := none
  address : Option Str := none
  listen_port : Option Str := none
  private_key : Option Str := none
  public_key : Option Str := none
  dns : Option Str := none
  table : Option Str := none
  mtu : Option Str := none
  pre_up : Option Str := none
  post_up : Option Str := none
  pre_down : Option Str := none
  post_down : Option Str := none
  fwmark : Option Str := none
  binding_iface : Option Str := none
  routing_script_name : Option Str := none
  has_script_bind_iface : Bool := false
deriving DecidableEq, Repr

/-- Remote peer settings (struct Peer). -/
structure Peer where
  name : Option Str := none
  allowed_ips : Option Str := none
  endpoint : Option Str := none
  public_key : Option Str := none
  persistent_keepalive : Option Str := none
deriving DecidableEq, Repr

/-- struct WireguardConfig. -/
structure WireguardConfig where
  interface : Interface := {}
  peers : List Peer := []
deriving DecidableEq, Repr

/-- struct RoutingHooks. -/
structure RoutingHooks where
  pre_up : Option Str := none
  post_up : Option Str := none
  pre_down : Option Str := none
  post_down : Option Str := none
  fwmark : Option Str := none
  has_bind_interface : Bool := false
deriving DecidableEq, Repr

/-- struct RoutingScripts (path and truncated content are carried along but
    play no role in the verified operations). -/
structure RoutingScripts where
  path : Str := []
  name : Str := []
  content : Str := []
  routing_hooks : RoutingHooks := {}
deriving DecidableEq, Repr

/-- enum RoutingKeyword. -/
inductive RoutingKeyword where
  | PreUp
  | PostUp
  | PreDown
  | PostDown
  | FwMark
deriving DecidableEq, Repr

/-- impl FromStr for RoutingKeyword. -/
def RoutingKeyword.fromStr (s : Str) : Option RoutingKeyword :=
  if s = ("PreUp".data) then some .PreUp
  else if s = ("PostUp".data) then some .PostUp
  else if s = ("PreDown".data) then some .PreDown
  else if s = ("PostDown".data) then some .PostDown
  else if s = ("FwMark".data) then some .FwMark
  else none

/-- The text produced for a RoutingKeyword by the Rust Debug derive, used in
    script error messages. -/
def RoutingKeyword.dbg : RoutingKeyword → Str
  | .PreUp => ("PreUp".data)
  | .PostUp => ("PostUp".data)
  | .PreDown => ("PreDown".data)
  | .PostDown => ("PostDown".data)
  | .FwMark => ("FwMark".data)

/-! ## External collaborators of the codec

utils::is_ip_valid delegates the actual address syntax check to the ipnetwork
crate, and utils::generate_public_key pipes the private key through the
external key tool.  Both externals are oracle parameters. -/

/-- Oracle environment for the codec externals. -/
structure CodecEnv where
  /-- ipnetwork::IpNetwork::from_str(s).is_ok() for a trimmed nonempty s. -/
  ipOk : Str → Bool
  /-- stdout of the external pubkey tool when the given trimmed private key
      is written to its stdin. -/
  pubkeyOut : Str → Str

/-- utils::is_ip_valid. -/
def is_ip_valid (env : CodecEnv) : Option Str → Bool
  | some s =>
    let trimmed := trimStr s
    if ¬trimmed.isEmpty then env.ipOk trimmed else false
  | none => false

/-- utils::generate_public_key: writes the trimmed private key to the key
    tool, fails if the tool produces empty stdout, otherwise returns the
    trimmed stdout. -/
def generate_public_key (env : CodecEnv) (priv_key : Str) : Except Str Str :=
  let out := env.pubkeyOut (trimStr priv_key)
  if out.isEmpty then .error ("Failed to generate public key".data)
  else .ok (trimStr out)

/-! ## parse_config (src/config.rs lines 98-229) -/

/-- The line classification produced by the lexer inside parse_config. -/
inductive LineType where
  | Section (s : Str)
  | Attribute (k v : Str)
  | Comment (c : Str)
deriving DecidableEq, Repr

/-- Error text for a line matching neither a section, a comment, nor an
    assignment; i is the 0-based index of the line in the raw split. -/
def errCouldntParse (i : Nat) (l : Str) : Str :=
  ("Couldn".data) ++ [sq] ++ ("t parse line ".data) ++ Nat.toDigits 10 (i + 1)
    ++ (": ".data) ++ [bq] ++ trimStr l ++ [bq]

/-- One step of the lexer inside parse_config; l is already trimmed. -/
def lexLine (i : Nat) (l : Str) : Except Str LineType :=
  match stripChPre '[' l with
  | some l1 =>
    match stripChSuf ']' l1 with
    | some sec => .ok (.Section (trimStr sec))
    | none => lexRest i l
  | none => lexRest i l
where
  /-- The comment and assignment alternatives of the lexer. -/
  lexRest (i : Nat) (l : Str) : Except Str LineType :=
    match stripChPre '#' l with
    | some comment => .ok (.Comment (trimStr comment))
    | none =>
      match splitOnce '=' l with
      | some (left, right) => .ok (.Attribute (trimStr left) (trimStr right))
      | none => .error (errCouldntParse i l)

/-- The enumerate-filter-map-collect pipeline of the lexer: lines are already
    trimmed, indices count every raw line, blank lines are skipped, the first
    error aborts. -/
def lexLines : Nat → List Str → Except Str (List LineType)
  | _, [] => .ok []
  | i, l :: rest =>
    if l.isEmpty then lexLines (i + 1) rest
    else
      match lexLine i l with
      | .error e => .error e
      | .ok t =>
        match lexLines (i + 1) rest with
        | .error e => .error e
        | .ok ts => .ok (t :: ts)

/-- The full lexer of parse_config. -/
def lexConfig (s : Str) : Except Str (List LineType) :=
  lexLines 0 ((splitCh '\n' s).map trimStr)

/-- Peer attribute update applied inside the peer branch of the main loop. -/
def applyPeerKV (p : Peer) (key v : Str) : Peer :=
  if key = ("AllowedIPs".data) then { p with allowed_ips := some v }
  else if key = ("Endpoint".data) then { p with endpoint := some v }
  else if key = ("PublicKey".data) then { p with public_key := some v }
  else { p with persistent_keepalive := some v }

/-- The main loop of parse_config over the lexed lines, with the section
    flags and the peer accumulator threaded explicitly.  The peek on the
    iterator becomes a match on the head of the remaining list. -/
def parseLines (env : CodecEnv) :
    List LineType → WireguardConfig → Bool → Bool → Peer →
    Except Str WireguardConfig
  | [], cfg, _, _, _ => .ok cfg
  | .Section s :: rest, cfg, _inIface, _inPeer, tmp =>
    if s = ("Interface".data) then parseLines env rest cfg true false tmp
    else if s = ("Peer".data) then parseLines env rest cfg false true tmp
    else .error (("Unexpected interface name ".data) ++ s ++ (".".data))
  | .Comment c :: rest, cfg, inIface, inPeer, tmp =>
    match splitOnce '=' c with
    | some (k0, v0) =>
      let key := trimStr k0
      let v := trimStr v0
      if inIface then
        if key = ("Name".data) then
          parseLines env rest { cfg with interface := { cfg.interface with name := some v } } inIface inPeer tmp
        else if key = ("BindIface".data) then
          parseLines env rest { cfg with interface := { cfg.interface with binding_iface := some v } } inIface inPeer tmp
        else if key = ("RoutingScriptName".data) then
          parseLines env rest { cfg with interface := { cfg.interface with routing_script_name := some v } } inIface inPeer tmp
        else parseLines env rest cfg inIface inPeer tmp
      else if inPeer ∧ key = ("Name".data) then
        parseLines env rest cfg inIface inPeer { tmp with name := some v }
      else parseLines env rest cfg inIface inPeer tmp
    | none =>
      if inIface then
        match stripPre ("Key for ".data) c with
        | some user =>
          parseLines env rest { cfg with interface := { cfg.interface with name := some user } } inIface inPeer tmp
        | none => parseLines env rest cfg inIface inPeer tmp
      else if inPeer ∧ tmp.name = none then
        parseLines env rest cfg inIface inPeer { tmp with name := some c }
      else parseLines env rest cfg inIface inPeer tmp
  | .Attribute key v :: rest, cfg, inIface, inPeer, tmp =>
    if inIface then
      if key = ("Address".data) then
        if ¬is_ip_valid env (some v) then
          .error (("Invalid IP address ".data) ++ v ++ (".".data))
        else
          parseLines env rest { cfg with interface := { cfg.interface with address := some v } } inIface inPeer tmp
      else if key = ("ListenPort".data) then
        parseLines env rest { cfg with interface := { cfg.interface with listen_port := some v } } inIface inPeer tmp
      else if key = ("PrivateKey".data) then
        match generate_public_key env v with
        | .ok pk =>
          parseLines env rest { cfg with interface := { cfg.interface with public_key := some pk, private_key := some v } } inIface inPeer tmp
        | .error e => .error (("Generating public key: ".data) ++ e ++ (".".data))
      else if key = ("DNS".data) then
        parseLines env rest { cfg with interface := { cfg.interface with dns := some v } } inIface inPeer tmp
      else if key = ("Table".data) then
        parseLines env rest { cfg with interface := { cfg.interface with table := some v } } inIface inPeer tmp
      else if key = ("MTU".data) then
        parseLines env rest { cfg with interface := { cfg.interface with mtu := some v } } inIface inPeer tmp
      else if key = ("PreUp".data) then
        parseLines env rest { cfg with interface := { cfg.interface with pre_up := some v } } inIface inPeer tmp
      else if key = ("PostUp".data) then
        parseLines env rest { cfg with interface := { cfg.interface with post_up := some v } } inIface inPeer tmp
      else if key = ("PreDown".data) then
        parseLines env rest { cfg with interface := { cfg.interface with pre_down := some v } } inIface inPeer tmp
      else if key = ("PostDown".data) then
        parseLines env rest { cfg with interface := { cfg.interface with post_down := some v } } inIface inPeer tmp
      else if key = ("FwMark".data) then
        parseLines env rest { cfg with interface := { cfg.interface with fwmark := some v } } inIface inPeer tmp
      else .error (("Unexpected Interface configuration key: ".data) ++ key)
    else if inPeer then
      if key = ("AllowedIPs".data) ∨ key = ("Endpoint".data) ∨ key = ("PublicKey".data)
          ∨ key = ("PersistentKeepalive".data) then
        let tmp1 := applyPeerKV tmp key v
        match rest with
        | .Section _ :: _ =>
          parseLines env rest { cfg with peers := cfg.peers ++ [tmp1] } inIface inPeer {}
        | [] =>
          parseLines env rest { cfg with peers := cfg.peers ++ [tmp1] } inIface inPeer tmp1
        | _ => parseLines env rest cfg inIface inPeer tmp1
      else .error (("Unexpected Peer configuration key: ".data) ++ key)
    else .error (("Unexpected attribute ".data) ++ key ++ (".".data))

/-- pub fn parse_config. -/
def parse_config (env : CodecEnv) (s : Str) : Except Str WireguardConfig :=
  match lexConfig s with
  | .error e => .error e
  | .ok lines => parseLines env lines {} false false {}

/-! ## write_config (src/config.rs lines 231-283) -/

/-- Some(key).zip(value) used to build the key-value arrays. -/
def zipKV (k : Str) (v : Option Str) : Option (Str × Str) :=
  v.map (fun x => (k, x))

/-- The Interface section key-value pairs, in the fixed output order, with the
    bind-interface pair filtered by has_script_bind_iface. -/
def ifaceKvs (i : Interface) : List (Str × Str) :=
  [ zipKV ("# Name".data) i.name,
    (zipKV ("# BindIface".data) i.binding_iface).filter (fun _ => i.has_script_bind_iface),
    zipKV ("# RoutingScriptName".data) i.routing_script_name,
    zipKV ("Address".data) i.address,
    zipKV ("ListenPort".data) i.listen_port,
    zipKV ("PrivateKey".data) i.private_key,
    zipKV ("DNS".data) i.dns,
    zipKV ("Table".data) i.table,
    zipKV ("MTU".data) i.mtu,
    zipKV ("PreUp".data) i.pre_up,
    zipKV ("PostUp".data) i.post_up,
    zipKV ("PreDown".data) i.pre_down,
    zipKV ("PostDown".data) i.post_down,
    zipKV ("FwMark".data) i.fwmark ].filterMap id

/-- The Peer section key-value pairs, in the fixed output order. -/
def peerKvs (p : Peer) : List (Str × Str) :=
  [ zipKV ("# Name".data) p.name,
    zipKV ("AllowedIPs".data) p.allowed_ips,
    zipKV ("Endpoint".data) p.endpoint,
    zipKV ("PublicKey".data) p.public_key,
    zipKV ("PersistentKeepalive".data) p.persistent_keepalive ].filterMap id

/-- One rendered "key = value" line with its newline. -/
def kvRender (kv : Str × Str) : Str := kv.1 ++ (" = ".data) ++ kv.2 ++ ['\n']

/-- One rendered peer block. -/
def peerRender (p : Peer) : Str :=
  ("[Peer]".data) ++ ['\n'] ++ catMap kvRender (peerKvs p) ++ ['\n']

/-- pub fn write_config. -/
def write_config (c : WireguardConfig) : Str :=
  ("[Interface]".data) ++ ['\n'] ++ catMap kvRender (ifaceKvs c.interface) ++ ['\n']
    ++ catMap peerRender c.peers

/-! ## parse_routing_keywords (src/config.rs lines 452-544) -/

/-- Rust str::lines, as consumed by parse_routing_keywords: split on newline
    with no trailing empty segment.  A carriage return left at the end of a
    line by a CRLF ending is immaterial here because every consumer trims the
    raw line first. -/
def rustLines (s : Str) : List Str :=
  match (splitCh '\n' s).reverse with
  | [] :: t => t.reverse
  | _ => splitCh '\n' s

/-- The placeholder token for the chosen binding interface. -/
def bindToken : Str := ("%bindIface".data)

/-- The command whitelist of parse_routing_keywords. -/
def goodCmd (cmd : Str) : Bool :=
  startsWithS ("iptables".data) cmd || startsWithS ("ip ".data) cmd
    || startsWithS ("ip6tables".data) cmd

/-- The command list of a directive: split on semicolons, trimmed, empty
    entries dropped. -/
def splitCmds (cmdsRaw : Str) : List Str :=
  ((splitCh ';' (trimStr cmdsRaw)).map trimStr).filter (fun c => ¬c.isEmpty)

/-- parts.join("; ") from parse_routing_keywords. -/
def joinSemi : List Str → Str
  | [] => []
  | [c] => c
  | c :: cs => c ++ ("; ".data) ++ joinSemi cs

/-- Error text for a directive line without an equals sign. -/
def errMissingEq (nm line : Str) : Str :=
  ("Invalid syntax in script ".data) ++ [sq] ++ nm ++ [sq] ++ (": missing ".data)
    ++ [sq] ++ ("=".data) ++ [sq] ++ (" in line ".data) ++ [sq] ++ line ++ [sq]

/-- Error text for an unknown routing keyword. -/
def errUnknownKw (k nm : Str) : Str :=
  ("Unknown routing keyword ".data) ++ [sq] ++ k ++ [sq] ++ (" in script ".data)
    ++ [sq] ++ nm ++ [sq]

/-- Error text for an empty command list. -/
def errEmptyCmds (kw : RoutingKeyword) (nm : Str) : Str :=
  ("Empty command list for ".data) ++ kw.dbg ++ (" in script ".data) ++ [sq] ++ nm ++ [sq]

/-- Error text for a command outside the whitelist. -/
def errInvalidCmd (cmd : Str) (kw : RoutingKeyword) (nm : Str) : Str :=
  ("Invalid command ".data) ++ [sq] ++ cmd ++ [sq] ++ (" for ".data) ++ kw.dbg
    ++ (" in script ".data) ++ [sq] ++ nm ++ [sq]
    ++ (". Only iptables/ip/ip6tables allowed.".data)

/-- Error text for a script with none of the four up/down directives. -/
def errNoKeywords (nm : Str) : Str :=
  ("Script ".data) ++ [sq] ++ nm ++ [sq]
    ++ (" does not contain any routing keywords (PreUp, PostUp, PreDown, PostDown)".data)

/-- The command loop of parse_routing_keywords for a non-FwMark directive:
    rejects the first command outside the whitelist, otherwise accumulates
    the bind-interface flag. -/
def procCmds (kw : RoutingKeyword) (nm : Str) : Bool → List Str → Except Str Bool
  | flag, [] => .ok flag
  | flag, c :: cs =>
    if ¬goodCmd c then .error (errInvalidCmd c kw nm)
    else procCmds kw nm (flag || containsSub bindToken c) cs

/-- Storing the joined command list under its keyword. -/
def setHook (st : RoutingHooks) (kw : RoutingKeyword) (v : Str) : RoutingHooks :=
  match kw with
  | .PreUp => { st with pre_up := some v }
  | .PostUp => { st with post_up := some v }
  | .PreDown => { st with pre_down := some v }
  | .PostDown => { st with post_down := some v }
  | .FwMark => { st with fwmark := some v }

/-- One iteration of the line loop of parse_routing_keywords. -/
def procLine (nm : Str) (st : RoutingHooks) (raw : Str) : Except Str RoutingHooks :=
  let line := trimStr raw
  if line.isEmpty || startsWithCh '#' line then .ok st
  else
    match splitOnce '=' line with
    | none => .error (errMissingEq nm line)
    | some (k, cmdsRaw) =>
      match RoutingKeyword.fromStr (trimStr k) with
      | none => .error (errUnknownKw (trimStr k) nm)
      | some kw =>
        let parts := splitCmds cmdsRaw
        if parts.isEmpty then .error (errEmptyCmds kw nm)
        else if kw = .FwMark then .ok (setHook st kw (joinSemi parts))
        else
          match procCmds kw nm st.has_bind_interface parts with
          | .error e => .error e
          | .ok flag => .ok (setHook { st with has_bind_interface := flag } kw (joinSemi parts))

/-- The line loop of parse_routing_keywords. -/
def procLines (nm : Str) : List Str → RoutingHooks → Except Str RoutingHooks
  | [], st => .ok st
  | l :: ls, st =>
    match procLine nm st l with
    | .error e => .error e
    | .ok st1 => procLines nm ls st1

/-- fn parse_routing_keywords. -/
def parse_routing_keywords (content nm : Str) : Except Str RoutingHooks :=
  match procLines nm (rustLines content) {} with
  | .error e => .error e
  | .ok st =>
    if st.pre_up = none ∧ st.post_up = none ∧ st.pre_down = none ∧ st.post_down = none then
      .error (errNoKeywords nm)
    else .ok st

/-! ## validate_assign_routing_script (src/config.rs lines 566-644) -/

/-- Error text when the named routing script is not among the scanned ones. -/
def scriptMissingErr (nm : Str) : Str :=
  [sq] ++ nm ++ [sq] ++ (" is not available or valid.\nPlease select again from the menu.".data)

/-- scripts.iter().find(|s| &s.name == script_name). -/
def findScript : List RoutingScripts → Str → Option RoutingScripts
  | [], _ => none
  | s :: rest, nm => if s.name = nm then some s else findScript rest nm

/-- The check_field closure: compares one config hook against the script
    template, replacing every occurrence of the binding interface name with
    the placeholder token first when use_bind is set. -/
def check_field (cfg : WireguardConfig) (cfg_val template_val : Option Str)
    (use_bind : Bool) (nm : Str) : Except Str Unit :=
  match cfg_val, template_val with
  | some cv, some template =>
    let normalized :=
      if use_bind then
        match cfg.interface.binding_iface with
        | some iface => replaceSub iface bindToken cv
        | none => cv
      else cv
    if normalized ≠ template then
      .error (nm ++ (" script does not match the expected template.".data))
    else .ok ()
  | none, none => .ok ()
  | _, _ => .error (nm ++ (" scripts are not identical".data))

/-- The five sequential check_field calls of validate_assign_routing_script;
    the first error propagates. -/
def routingChecks (cfg : WireguardConfig) (script : RoutingScripts) : Except Str Unit :=
  match check_field cfg cfg.interface.pre_up script.routing_hooks.pre_up true ("pre_up".data) with
  | .error e => .error e
  | .ok _ =>
    match check_field cfg cfg.interface.post_up script.routing_hooks.post_up true ("post_up".data) with
    | .error e => .error e
    | .ok _ =>
      match check_field cfg cfg.interface.pre_down script.routing_hooks.pre_down true ("pre_down".data) with
      | .error e => .error e
      | .ok _ =>
        match check_field cfg cfg.interface.post_down script.routing_hooks.post_down true ("post_down".data) with
        | .error e => .error e
        | .ok _ =>
          check_field cfg cfg.interface.fwmark script.routing_hooks.fwmark false ("fwmark".data)

/-- pub fn validate_assign_routing_script.  The mutable reference becomes an
    explicitly returned config: every early return leaves it untouched, the
    single assignment on success sets has_script_bind_iface. -/
def validate_assign_routing_script (scripts : List RoutingScripts)
    (cfg : WireguardConfig) : Except Str Unit × WireguardConfig :=
  match cfg.interface.routing_script_name with
  | none => (.ok (), cfg)
  | some script_name =>
    match findScript scripts script_name with
    | none => (.error (scriptMissingErr script_name), cfg)
    | some script =>
      match routingChecks cfg script with
      | .error e => (.error e, cfg)
      | .ok _ =>
        (.ok (), { cfg with interface :=
          { cfg.interface with has_script_bind_iface := script.routing_hooks.has_bind_interface } })

/-! ## Tunnel state machine (src/tunnel.rs) -/

/-- enum NetState. -/
inductive NetState where
  | IplinkUp
  | IplinkDown
  | WgQuickUp
  | WgQuickDown
deriving DecidableEq, Repr

/-- One OS network interface as reported by getifaddrs: its name and the UP
    and RUNNING flags. -/
structure OsIface where
  name : Str
  up : Bool
  running : Bool

/-- Oracle environment for the external processes and OS queries touched by
    the tunnel state machine.  A None outcome models an IO failure of the
    bounded runner (the spawn panic of the status query is a process abort
    and has no return value to model). -/
structure TunnelEnv where
  /-- Exit code and combined output of the status query for a name. -/
  wgShow : Str → Option (Option Int × Str)
  /-- The interface list from getifaddrs, or None when it fails. -/
  ifaces : Option (List OsIface)
  /-- Exit code and combined output of the activation tool for an action. -/
  wgQuick : Str → Option (Option Int × Str)

/-- The first-match walk of Tunnel::is_interface_up over the interface list:
    the named interface must be both up and running; a missing interface
    yields false. -/
def lookupIface : List OsIface → Str → Bool
  | [], _ => false
  | i :: rest, nm => if i.name = nm then (i.up && i.running) else lookupIface rest nm

/-- fn is_interface_up. -/
def is_interface_up (env : TunnelEnv) (nm : Str) : Except Str Bool :=
  match env.ifaces with
  | none => .error ("Failed to get interfaces".data)
  | some l => .ok (lookupIface l nm)

/-- fn is_wg_iface_running: the live-state query.  The status query must exit
    zero with nonempty output, else WgQuickDown; then the OS flags must be up
    and running, else IplinkDown; otherwise WgQuickUp. -/
def is_wg_iface_running (env : TunnelEnv) (nm : Str) : NetState :=
  let showOk :=
    match env.wgShow nm with
    | some (code, out) => code = some 0 && ¬out.isEmpty
    | none => false
  if !showOk then .WgQuickDown
  else
    let flagsUp :=
      match is_interface_up env nm with
      | .ok b => b
      | .error _ => false
    if !flagsUp then .IplinkDown
    else .WgQuickUp

/-- The run_wg_quick closure: an IO failure or a non-zero exit is an error
    carrying the trimmed captured output. -/
def run_wg_quick (env : TunnelEnv) (action : Str) : Except Str Unit :=
  match env.wgQuick action with
  | none => .error ("Command timeout or IO error".data)
  | some (code, out) =>
    if code ≠ some 0 then
      .error (("Failed to execute wg-quick ".data) ++ action ++ (": ".data) ++ trimStr out)
    else .ok ()

/-- The transition match of execute_toggle on the queried state; the second
    component records the activation-tool actions invoked, in order. -/
def toggle_transition (env : TunnelEnv) (state : NetState) : Except Str Unit × List Str :=
  match state with
  | .IplinkDown =>
    match run_wg_quick env ("down".data) with
    | .error e => (.error e, [("down".data)])
    | .ok _ =>
      match run_wg_quick env ("up".data) with
      | .error e => (.error e, [("down".data), ("up".data)])
      | .ok _ => (.ok (), [("down".data), ("up".data)])
  | .WgQuickUp => (run_wg_quick env ("down".data), [("down".data)])
  | .WgQuickDown => (run_wg_quick env ("up".data), [("up".data)])
  | .IplinkUp => (.error ("Unknown interface state".data), [])

/-- fn execute_toggle: queries the live state (the "show" trace entry), then
    follows the transition table. -/
def execute_toggle (env : TunnelEnv) (nm : Str) : Except Str Unit × List Str :=
  let state := is_wg_iface_running env nm
  let r := toggle_transition env state
  (r.1, ("show".data) :: r.2)

/-- fn is_cfg_valid. -/
def is_cfg_valid (cfg : WireguardConfig) : Except Str Unit :=
  let iface := cfg.interface
  if iface.public_key = none then
    .error ("Public key is not defined in interface section".data)
  else if iface.listen_port = none then
    .error ("Listen port is not defined in interface section".data)
  else if iface.address = none then
    .error ("IP address is not defined in interface section".data)
  else if cfg.peers.isEmpty then
    .error ("No peers defined".data)
  else if cfg.peers.any (fun p =>
      match p.public_key with
      | none => true
      | some v => (trimStr v).isEmpty) then
    .error ("Peer public key is empty".data)
  else if iface.has_script_bind_iface && iface.binding_iface = none then
    .error (("Binding interface cannot be selected as ".data) ++ [sq] ++ ("None".data) ++ [sq])
  else .ok ()

/-- The Toggle branch of Tunnel::update_with_view: when the cached active
    flag is false (about to bring the tunnel up), an unsaved config or an
    invalid config aborts before execute_toggle spawns anything; otherwise
    execute_toggle runs.  The trace lists the external invocations. -/
def toggle (env : TunnelEnv) (active saved : Bool) (cfg : WireguardConfig)
    (nm : Str) : Except Str Unit × List Str :=
  if ¬active then
    if ¬saved then
      (.error ("You must save the configuration before activating the tunnel.".data), [])
    else
      match is_cfg_valid cfg with
      | .error e => (.error e, [])
      | .ok _ => execute_toggle env nm
  else execute_toggle env nm

/-! ## General helper lemmas -/

/-- Stripping a pattern from the concatenation of that pattern with anything
    yields the remainder. -/
theorem stripPre_self_append (m b : Str) : stripPre m (m ++ b) = some b := by
  induction m with
  | nil => rfl
  | cons c m ih => simp [stripPre, ih]

/-- A string starts with any of its prefixes. -/
theorem startsWithS_self_append (m b : Str) : startsWithS m (m ++ b) = true := by
  simp [startsWithS, stripPre_self_append]

/-- Substring search succeeds on an explicit decomposition. -/
theorem containsSub_append_mid (a m b : Str) : containsSub m (a ++ m ++ b) = true := by
  induction a with
  | nil =>
    match m, b with
    | [], [] => rfl
    | [], c :: b => simp [containsSub, startsWithS, stripPre]
    | c :: m, b =>
      have h := startsWithS_self_append (c :: m) b
      simp only [List.nil_append, List.cons_append] at *
      simp [containsSub, h]
  | cons c a ih =>
    simp only [List.cons_append, containsSub, List.append_assoc] at *
    simp [ih]

/-- Substring search succeeds on any decomposition given by equation. -/
theorem containsSub_parts (m s a b : Str) (h : s = a ++ m ++ b) :
    containsSub m s = true := by
  rw [h]
  exact containsSub_append_mid a m b

/-- dropWhile is idempotent. -/
theorem dropWhile_idem (p : Char → Bool) (l : Str) :
    (l.dropWhile p).dropWhile p = l.dropWhile p := by
  induction l with
  | nil => rfl
  | cons c t ih =>
    by_cases h : p c = true
    · simp [List.dropWhile, h, ih]
    · simp [List.dropWhile, h]

/-- trimStart is idempotent. -/
theorem trimStart_idem (s : Str) : trimStart (trimStart s) = trimStart s :=
  dropWhile_idem wsp s

/-- trimEnd is idempotent. -/
theorem trimEnd_idem (s : Str) : trimEnd (trimEnd s) = trimEnd s := by
  simp [trimEnd, dropWhile_idem]

/-- trimEnd produces a prefix of its argument. -/
theorem trimEnd_prefix (s : Str) : ∃ r, s = trimEnd s ++ r := by
  have h : List.rdropWhile wsp s <+: s := List.rdropWhile_prefix wsp s
  obtain ⟨r, hr⟩ := h
  exact ⟨r, hr.symm⟩

/-- A trimStart-stable string stays trimStart-stable after trimEnd. -/
theorem trimStart_trimEnd_of_stable (s : Str) (h : trimStart s = s) :
    trimStart (trimEnd s) = trimEnd s := by
  obtain ⟨r, hr⟩ := trimEnd_prefix s
  match he : trimEnd s with
  | [] => rfl
  | c :: t =>
    rw [he] at hr
    by_cases hcw : wsp c = true
    · exfalso
      rw [hr] at h
      have h2 : List.dropWhile wsp (t ++ r) = c :: (t ++ r) := by
        simpa [trimStart, List.dropWhile, hcw] using h
      have h3 : (List.dropWhile wsp (t ++ r)).length ≤ (t ++ r).length :=
        (List.dropWhile_suffix wsp).length_le
      rw [h2] at h3
      simp at h3
    · have hc : wsp c = false := by revert hcw; cases wsp c <;> simp
      simp [trimStart, List.dropWhile, hc]

/-- trimStr is idempotent. -/
theorem trimStr_idem (s : Str) : trimStr (trimStr s) = trimStr s := by
  have h1 : trimStart (trimStart s) = trimStart s := trimStart_idem s
  have h2 : trimStart (trimEnd (trimStart s)) = trimEnd (trimStart s) :=
    trimStart_trimEnd_of_stable (trimStart s) h1
  simp [trimStr, h2, trimEnd_idem]

/-- A fixed oracle environment for the codec externals, used by concrete
    evaluations: every address is accepted and key derivation succeeds. -/
def envAny : CodecEnv := { ipOk := fun _ => true, pubkeyOut := fun _ => ("PK".data) }

/-- A tunnel oracle with the status query reporting the interface not found
    and every activation invocation succeeding. -/
def envShowDown : TunnelEnv :=
  { wgShow := fun _ => some (some 1, ("x".data)),
    ifaces := some [],
    wgQuick := fun _ => some (some 0, []) }

/-! ## Claims -/

/-- C3: for every tunnel name, the toggle action sequence is exactly
    determined by the queried state: WgQuickDown invokes only up, IplinkDown
    invokes down then up in that order, WgQuickUp invokes only down, and any
    other classification yields the unknown-interface-state error with no
    invocation; execute_toggle is exactly the query followed by this
    transition table. -/
theorem C3_transition_table (env : TunnelEnv) :
    (toggle_transition env .WgQuickDown).2 = [("up".data)]
    ∧ (toggle_transition env .WgQuickUp).2 = [("down".data)]
    ∧ (run_wg_quick env ("down".data) = .ok () →
        (toggle_transition env .IplinkDown).2 = [("down".data), ("up".data)])
    ∧ toggle_transition env .IplinkUp = (.error ("Unknown interface state".data), [])
    ∧ ∀ nm, execute_toggle env nm =
        ((toggle_transition env (is_wg_iface_running env nm)).1,
          ("show".data) :: (toggle_transition env (is_wg_iface_running env nm)).2) := by
  refine ⟨rfl, rfl, ?_, rfl, fun nm => rfl⟩
  intro h
  unfold toggle_transition
  rw [h]
  cases hup : run_wg_quick env ("up".data) <;> simp [hup]

/-- Witness for C3 at a concrete oracle. -/
theorem C3_transition_table_witness :
    (toggle_transition envShowDown .IplinkDown).2 = [("down".data), ("up".data)]
    ∧ (toggle_transition envShowDown .WgQuickDown).2 = [("up".data)] :=
  ⟨(C3_transition_table envShowDown).2.2.1 (by decide),
   (C3_transition_table envShowDown).1⟩

/-- C4: the live-state query classifies as WgQuickDown when the status query
    does not both exit zero and produce output; otherwise as IplinkDown when
    the OS flags of the named interface are not both up and running;
    otherwise as WgQuickUp; and it never produces IplinkUp. -/
theorem C4_state_query (env : TunnelEnv) (nm : Str) :
    (∀ code out, env.wgShow nm = some (code, out) →
      ¬(code = some 0 ∧ out ≠ []) → is_wg_iface_running env nm = .WgQuickDown)
    ∧ (∀ out l, env.wgShow nm = some (some 0, out) → out ≠ [] →
        env.ifaces = some l →
        (lookupIface l nm = false → is_wg_iface_running env nm = .IplinkDown)
        ∧ (lookupIface l nm = true → is_wg_iface_running env nm = .WgQuickUp))
    ∧ is_wg_iface_running env nm ≠ .IplinkUp := by
  refine ⟨?_, ?_, ?_⟩
  · intro code out hshow hbad
    have : ¬(code = some 0) ∨ out = [] := by tauto
    rcases this with h | h <;>
      simp [is_wg_iface_running, hshow, h, List.isEmpty_iff]
  · intro out l hshow hne hif
    constructor <;> intro hlook <;>
      simp [is_wg_iface_running, hshow, hne, is_interface_up, hif, hlook,
        List.isEmpty_iff]
  · unfold is_wg_iface_running
    split <;> (try split) <;> dsimp only <;> split_ifs <;> simp

/-- Witness for C4 at a concrete oracle. -/
theorem C4_state_query_witness :
    is_wg_iface_running envShowDown ("wg0".data) = .WgQuickDown :=
  (C4_state_query envShowDown ("wg0".data)).1 (some 1) ("x".data) (by decide)
    (by decide)

/-- C10: validate_assign_routing_script never changes the config on an error,
    and the only change it ever makes is setting has_script_bind_iface, which
    happens only together with full success. -/
theorem C10_validate_mutation (scripts : List RoutingScripts) (cfg : WireguardConfig) :
    (∀ e, (validate_assign_routing_script scripts cfg).1 = .error e →
      (validate_assign_routing_script scripts cfg).2 = cfg)
    ∧ ((validate_assign_routing_script scripts cfg).2 = cfg
       ∨ ((validate_assign_routing_script scripts cfg).1 = .ok ()
          ∧ ∃ b, (validate_assign_routing_script scripts cfg).2 =
              { cfg with interface :=
                { cfg.interface with has_script_bind_iface := b } })) := by
  rcases hrs : cfg.interface.routing_script_name with _ | nm
  · exact ⟨fun e h => by simp [validate_assign_routing_script, hrs],
      Or.inl (by simp [validate_assign_routing_script, hrs])⟩
  · rcases hf : findScript scripts nm with _ | script
    · exact ⟨fun e h => by simp [validate_assign_routing_script, hrs, hf],
        Or.inl (by simp [validate_assign_routing_script, hrs, hf])⟩
    · rcases hc : routingChecks cfg script with e0 | u
      · exact ⟨fun e h => by simp [validate_assign_routing_script, hrs, hf, hc],
          Or.inl (by simp [validate_assign_routing_script, hrs, hf, hc])⟩
      · refine ⟨fun e h => ?_,
          Or.inr ⟨by simp [validate_assign_routing_script, hrs, hf, hc], ?_⟩⟩
        · simp [validate_assign_routing_script, hrs, hf, hc] at h
        · exact ⟨script.routing_hooks.has_bind_interface,
            by simp [validate_assign_routing_script, hrs, hf, hc]⟩

/-- A config naming a routing script that is not on the scripts list, for the
    C10 witness. -/
def cfgMissingScript : WireguardConfig :=
  { interface := { routing_script_name := some ("route.sh".data) } }

/-- Witness for C10: a failing reconciliation leaves the config unchanged. -/
theorem C10_validate_mutation_witness :
    (validate_assign_routing_script [] cfgMissingScript).2 = cfgMissingScript :=
  (C10_validate_mutation [] cfgMissingScript).1
    (scriptMissingErr ("route.sh".data)) (by decide)

/-- A config whose only defect under the spec notion of endpoint validity is
    a peer endpoint that is not a host:port address; every check the code
    actually performs passes. -/
def cfgBadEndpoint : WireguardConfig :=
  { interface :=
      { public_key := some ("pk".data),
        listen_port := some ("51820".data),
        address := some ("10.0.0.1/24".data) },
    peers := [ { endpoint := some ("###not-a-host-port###".data),
                 public_key := some ("PK".data) } ] }

/-- C2 counterexample: bringing a tunnel up with a peer endpoint that no
    host:port parse would accept neither fails validation nor aborts; the
    toggle proceeds and the status query plus an up invocation run. -/
theorem C2_counterexample :
    cfgBadEndpoint.peers.map Peer.endpoint = [some ("###not-a-host-port###".data)]
    ∧ is_cfg_valid cfgBadEndpoint = .ok ()
    ∧ toggle envShowDown false true cfgBadEndpoint ("wg0".data)
        = (.ok (), [("show".data), ("up".data)]) := by
  refine ⟨rfl, by decide, by decide⟩

/-- C2 (corrected): when the cached active flag is false (a toggle that is
    about to bring the tunnel up), an unsaved config or any is_cfg_valid
    failure (missing public key, listen port or address, no peers, a blank
    peer public key, or a missing binding interface when the script needs
    one) aborts the toggle with an error before any external process is run;
    peer endpoints are not validated. -/
theorem C2_precheck_aborts (env : TunnelEnv) (active saved : Bool)
    (cfg : WireguardConfig) (nm : Str) (hact : active = false)
    (habort : saved = false ∨ ∃ e, is_cfg_valid cfg = .error e) :
    ∃ e, toggle env active saved cfg nm = (.error e, []) := by
  subst hact
  rcases habort with hsv | ⟨e, hv⟩
  · subst hsv
    exact ⟨_, rfl⟩
  · cases saved with
    | false => exact ⟨_, rfl⟩
    | true => exact ⟨e, by simp [toggle, hv]⟩

/-- Witness for C2: an invalid (empty) config aborts with no invocation. -/
theorem C2_precheck_aborts_witness :
    ∃ e, toggle envShowDown false true ({} : WireguardConfig) ("wg0".data)
      = (.error e, []) :=
  C2_precheck_aborts envShowDown false true {} ("wg0".data) rfl
    (Or.inr ⟨("Public key is not defined in interface section".data), by decide⟩)

/-! ## C9: reconciliation against a routing-script template -/

/-- The relation actually enforced between a config hook value and the script
    directive: both absent, or both present with the config value mapping to
    the directive once every occurrence of the binding interface name is
    replaced by the placeholder. -/
def substOk (N : Str) : Option Str → Option Str → Bool
  | none, none => true
  | some cv, some t => replaceSub N bindToken cv = t
  | _, _ => false

/-- check_field succeeds on substOk-related values when the binding interface
    is set. -/
theorem check_field_of_substOk (cfg : WireguardConfig) (cv tv : Option Str)
    (N nm2 : Str) (hbind : cfg.interface.binding_iface = some N)
    (hsub : substOk N cv tv = true) :
    check_field cfg cv tv true nm2 = .ok () := by
  match cv, tv with
  | none, none => rfl
  | some cv, some t =>
    have he : replaceSub N bindToken cv = t := by simpa [substOk] using hsub
    simp [check_field, hbind, he]
  | some cv, none => simp [substOk] at hsub
  | none, some t => simp [substOk] at hsub

/-- check_field succeeds on literally equal values when no substitution is
    requested. -/
theorem check_field_of_eq (cfg : WireguardConfig) (cv tv : Option Str)
    (nm2 : Str) (heq : cv = tv) : check_field cfg cv tv false nm2 = .ok () := by
  subst heq
  match cv with
  | none => rfl
  | some v => simp [check_field]

/-- C9 (corrected): when the config names a routing script found on the list,
    the binding interface is set to N, each up/down hook equals the script
    directive under the reverse substitution actually performed (replacing
    every occurrence of N in the config value by the placeholder recovers the
    directive) and the fwmark matches literally, validation succeeds and sets
    has_script_bind_iface from the first script of that name; a missing
    script fails with an error naming it; a config with no routing script
    name is a no-op success. -/
theorem C9_reconciliation :
    (∀ (scripts : List RoutingScripts) (cfg : WireguardConfig) (nm : Str)
       (script : RoutingScripts) (N : Str),
      cfg.interface.routing_script_name = some nm →
      findScript scripts nm = some script →
      cfg.interface.binding_iface = some N →
      substOk N cfg.interface.pre_up script.routing_hooks.pre_up = true →
      substOk N cfg.interface.post_up script.routing_hooks.post_up = true →
      substOk N cfg.interface.pre_down script.routing_hooks.pre_down = true →
      substOk N cfg.interface.post_down script.routing_hooks.post_down = true →
      cfg.interface.fwmark = script.routing_hooks.fwmark →
      validate_assign_routing_script scripts cfg
        = (.ok (), { cfg with interface :=
            { cfg.interface with
              has_script_bind_iface := script.routing_hooks.has_bind_interface } }))
    ∧ (∀ (scripts : List RoutingScripts) (cfg : WireguardConfig) (nm : Str),
        cfg.interface.routing_script_name = some nm →
        findScript scripts nm = none →
        validate_assign_routing_script scripts cfg = (.error (scriptMissingErr nm), cfg)
          ∧ containsSub nm (scriptMissingErr nm) = true)
    ∧ (∀ (scripts : List RoutingScripts) (cfg : WireguardConfig),
        cfg.interface.routing_script_name = none →
        validate_assign_routing_script scripts cfg = (.ok (), cfg)) := by
  refine ⟨?_, ?_, ?_⟩
  · intro scripts cfg nm script N h1 h2 h3 h4 h5 h6 h7 h8
    have c1 := check_field_of_substOk cfg _ _ N ("pre_up".data) h3 h4
    have c2 := check_field_of_substOk cfg _ _ N ("post_up".data) h3 h5
    have c3 := check_field_of_substOk cfg _ _ N ("pre_down".data) h3 h6
    have c4 := check_field_of_substOk cfg _ _ N ("post_down".data) h3 h7
    have c5 := check_field_of_eq cfg _ _ ("fwmark".data) h8
    have hchecks : routingChecks cfg script = .ok () := by
      simp [routingChecks, c1, c2, c3, c4, c5]
    simp [validate_assign_routing_script, h1, h2, hchecks]
  · intro scripts cfg nm h1 h2
    refine ⟨by simp [validate_assign_routing_script, h1, h2], ?_⟩
    exact containsSub_parts nm _ [sq]
      ([sq] ++ (" is not available or valid.\nPlease select again from the menu.".data))
      (by simp [scriptMissingErr])
  · intro scripts cfg h1
    simp [validate_assign_routing_script, h1]

/-- The script template of the C9 witness. -/
def scW : RoutingScripts :=
  { name := ("route.sh".data),
    routing_hooks :=
      { pre_up := some ("ip rule add dev %bindIface table 1".data),
        has_bind_interface := true } }

/-- The reconciled config of the C9 witness: its pre_up carries the literal
    interface name where the template has the placeholder. -/
def cfgW9 : WireguardConfig :=
  { interface :=
      { routing_script_name := some ("route.sh".data),
        binding_iface := some ("eth0".data),
        pre_up := some ("ip rule add dev eth0 table 1".data) } }

/-- Witness for C9 at a concrete script list and config. -/
theorem C9_reconciliation_witness :
    validate_assign_routing_script [scW] cfgW9
      = (.ok (), { cfgW9 with interface :=
          { cfgW9.interface with has_script_bind_iface := true } }) :=
  C9_reconciliation.1 [scW] cfgW9 ("route.sh".data) scW ("eth0".data)
    (by decide) (by decide) (by decide) (by decide) (by decide) (by decide)
    (by decide) (by decide)

/-- The script of the C9 counterexample: its directive contains the chosen
    binding interface name as a literal substring. -/
def sc9 : RoutingScripts :=
  { name := ("s".data),
    routing_hooks := { pre_up := some ("ip a %bindIface".data),
                       has_bind_interface := true } }

/-- The config of the C9 counterexample: pre_up is exactly the directive with
    the placeholder replaced by the binding interface name "ip". -/
def cfg9 : WireguardConfig :=
  { interface :=
      { routing_script_name := some ("s".data),
        binding_iface := some ("ip".data),
        pre_up := some ("ip a ip".data) } }

/-- C9 counterexample: the config hook equals the directive with the
    placeholder replaced by the binding interface name, exactly as the claim
    demands, yet validation fails, because the code replaces every occurrence
    of the name on the way back and the directive itself contains "ip". -/
theorem C9_counterexample :
    replaceSub bindToken ("ip".data) ("ip a %bindIface".data) = ("ip a ip".data)
    ∧ validate_assign_routing_script [sc9] cfg9
        = (.error (("pre_up".data) ++ (" script does not match the expected template.".data)),
           cfg9) :=
  ⟨by decide, by decide⟩

/-! ## C5 and C6: routing-script directive validation -/

/-- (setHook) never changes the bind-interface flag. -/
theorem setHook_flag (st : RoutingHooks) (kw : RoutingKeyword) (v : Str) :
    (setHook st kw v).has_bind_interface = st.has_bind_interface := by
  cases kw <;> rfl

/-- The command loop errors on the first command outside the whitelist. -/
theorem procCmds_err (kw : RoutingKeyword) (nm : Str) (cmd : Str)
    (rest2 : List Str) (hbad : goodCmd cmd = false) :
    ∀ (good : List Str) (flag : Bool), (∀ c ∈ good, goodCmd c = true) →
      procCmds kw nm flag (good ++ cmd :: rest2) = .error (errInvalidCmd cmd kw nm) := by
  intro good
  induction good with
  | nil => intro flag hg; simp [procCmds, hbad]
  | cons c cs ih =>
    intro flag hg
    have hc : goodCmd c = true := hg c (by simp)
    simp only [List.cons_append, procCmds, hc, Bool.not_true, Bool.false_eq_true,
      if_false]
    exact ih _ (fun x hx => hg x (by simp [hx]))

/-- The command loop, when it succeeds, ors the incoming flag with the
    token-containment of every command. -/
theorem procCmds_flag_ok (kw : RoutingKeyword) (nm : Str) :
    ∀ (parts : List Str) (flag f : Bool),
      procCmds kw nm flag parts = .ok f →
      f = (flag || parts.any (fun c => containsSub bindToken c)) := by
  intro parts
  induction parts with
  | nil => intro flag f h; cases h; simp
  | cons c cs ih =>
    intro flag f h
    by_cases hc : goodCmd c = true
    · simp only [procCmds, hc, Bool.not_true, Bool.false_eq_true, if_false] at h
      have := ih _ _ h
      simp [this, List.any_cons, Bool.or_assoc]
    · have hc' : goodCmd c = false := by revert hc; cases goodCmd c <;> simp
      simp [procCmds, hc'] at h

/-- Whether one raw script line, when reached with all earlier lines clean,
    switches the bind-interface flag on: a non-skipped line whose keyword is
    one of the four up/down directives and whose command list mentions the
    placeholder token. -/
def lineBind (raw : Str) : Bool :=
  let line := trimStr raw
  if line.isEmpty || startsWithCh '#' line then false
  else
    match splitOnce '=' line with
    | none => false
    | some (k, cmdsRaw) =>
      match RoutingKeyword.fromStr (trimStr k) with
      | none => false
      | some kw =>
        !(kw == RoutingKeyword.FwMark)
          && (splitCmds cmdsRaw).any (fun c => containsSub bindToken c)

/-- One accepted line ors its lineBind value onto the flag. -/
theorem procLine_flag (nm : Str) (st st' : RoutingHooks) (raw : Str)
    (h : procLine nm st raw = .ok st') :
    st'.has_bind_interface = (st.has_bind_interface || lineBind raw) := by
  unfold procLine at h
  unfold lineBind
  by_cases hskip : ((trimStr raw).isEmpty || startsWithCh '#' (trimStr raw)) = true
  · simp only [hskip, if_true] at h ⊢
    cases h
    simp
  · simp only [hskip, if_false] at h ⊢
    rcases hsp : splitOnce '=' (trimStr raw) with _ | ⟨k, cmdsRaw⟩ <;>
      simp only [hsp] at h ⊢
    · cases h
    · rcases hkw : RoutingKeyword.fromStr (trimStr k) with _ | kw <;>
        simp only [hkw] at h ⊢
      · cases h
      · by_cases hemp : (splitCmds cmdsRaw).isEmpty = true
        · simp [hemp] at h
        · simp only [hemp, Bool.false_eq_true, if_false] at h ⊢
          by_cases hfw : kw = RoutingKeyword.FwMark
          · subst hfw
            simp only [if_true] at h
            cases h
            simp [setHook_flag]
          · simp only [hfw, if_false] at h
            rcases hpc : procCmds kw nm st.has_bind_interface (splitCmds cmdsRaw)
              with e | flag <;> simp only [hpc] at h
            · cases h
            · cases h
              have := procCmds_flag_ok kw nm _ _ _ hpc
              have hbeq : (kw == RoutingKeyword.FwMark) = false := by
                revert hfw; cases kw <;> simp
              simp [setHook_flag, this, hbeq]

/-- The line loop accumulates lineBind over all lines. -/
theorem procLines_flag (nm : Str) :
    ∀ (ls : List Str) (st st' : RoutingHooks),
      procLines nm ls st = .ok st' →
      st'.has_bind_interface = (st.has_bind_interface || ls.any lineBind) := by
  intro ls
  induction ls with
  | nil => intro st st' h; cases h; simp
  | cons l ls ih =>
    intro st st' h
    unfold procLines at h
    rcases hl : procLine nm st l with e | st1 <;> simp only [hl] at h
    · cases h
    · have h1 := procLine_flag nm st st1 l hl
      have h2 := ih st1 st' h
      simp [h2, h1, List.any_cons, Bool.or_assoc]

/-- C6 (corrected): for every successfully parsed script, the descriptor flag
    has_bind_interface is true exactly when some line carrying one of the
    four up/down directives (not FwMark) has a command containing the
    placeholder token %bindIface; FwMark bodies are never scanned. -/
theorem C6_bind_detection (content nm : Str) (hooks : RoutingHooks)
    (h : parse_routing_keywords content nm = .ok hooks) :
    hooks.has_bind_interface = (rustLines content).any lineBind := by
  unfold parse_routing_keywords at h
  rcases hp : procLines nm (rustLines content) {} with e | st <;> simp only [hp] at h
  · cases h
  · have := procLines_flag nm (rustLines content) {} st hp
    by_cases hnone : st.pre_up = none ∧ st.post_up = none ∧ st.pre_down = none
        ∧ st.post_down = none
    · simp [hnone] at h
    · simp only [hnone, if_false] at h
      cases h
      simpa using this

/-- The witness script content for C6: the placeholder sits in a PreUp
    command. -/
def contentC6w : Str := ("PreUp = ip rule add dev %bindIface table 1".data)

/-- The parse result of the C6 witness script. -/
def hooksC6w : RoutingHooks :=
  { pre_up := some ("ip rule add dev %bindIface table 1".data),
    has_bind_interface := true }

/-- Witness for C6 at a concrete script. -/
theorem C6_bind_detection_witness :
    parse_routing_keywords contentC6w ("w".data) = .ok hooksC6w
    ∧ hooksC6w.has_bind_interface = (rustLines contentC6w).any lineBind :=
  ⟨by decide, C6_bind_detection contentC6w ("w".data) hooksC6w (by decide)⟩

/-- The C6 counterexample script: the placeholder token occurs only in the
    FwMark body. -/
def contentC6c : Str := ("PreUp = iptables -A INPUT\nFwMark = %bindIface".data)

/-- C6 counterexample: a script whose FwMark directive body contains the
    placeholder parses successfully with has_bind_interface = false, although
    the claim lists FwMark among the scanned directives. -/
theorem C6_counterexample :
    parse_routing_keywords contentC6c ("s".data)
      = .ok { pre_up := some ("iptables -A INPUT".data),
              fwmark := some ("%bindIface".data),
              has_bind_interface := false }
    ∧ containsSub bindToken ("%bindIface".data) = true :=
  ⟨by decide, by decide⟩

/-- A line of a script errors independently of the accumulated state when its
    directive carries a command outside the whitelist. -/
theorem procLine_err (nm raw k0 cmdsRaw : Str) (kw : RoutingKeyword)
    (good : List Str) (cmd : Str) (rest2 : List Str)
    (hskip : ((trimStr raw).isEmpty || startsWithCh '#' (trimStr raw)) = false)
    (hsp : splitOnce '=' (trimStr raw) = some (k0, cmdsRaw))
    (hkw : RoutingKeyword.fromStr (trimStr k0) = some kw)
    (hfw : kw ≠ RoutingKeyword.FwMark)
    (hparts : splitCmds cmdsRaw = good ++ cmd :: rest2)
    (hgood : ∀ c ∈ good, goodCmd c = true)
    (hbad : goodCmd cmd = false) :
    ∀ st, procLine nm st raw = .error (errInvalidCmd cmd kw nm) := by
  intro st
  unfold procLine
  simp only [hskip, Bool.false_eq_true, if_false, hsp, hkw]
  have hemp : (splitCmds cmdsRaw).isEmpty = false := by simp [hparts]
  simp only [hemp, Bool.false_eq_true, if_false, hfw, if_false]
  rw [hparts]
  rw [procCmds_err kw nm cmd rest2 hbad good st.has_bind_interface hgood]

/-- A clean prefix of lines steps through, and the first bad directive aborts
    the whole line loop with its own error. -/
theorem procLines_err (nm raw : Str) (e : Str)
    (herr : ∀ st, procLine nm st raw = .error e) :
    ∀ (pre : List Str) (post : List Str) (st : RoutingHooks),
      (∀ st2 x, x ∈ pre → ∃ st3, procLine nm st2 x = .ok st3) →
      procLines nm (pre ++ raw :: post) st = .error e := by
  intro pre
  induction pre with
  | nil =>
    intro post st hp
    simp only [List.nil_append]
    unfold procLines
    rw [herr st]
  | cons l ls ih =>
    intro post st hp
    obtain ⟨st3, h3⟩ := hp st l (by simp)
    simp only [List.cons_append]
    unfold procLines
    rw [h3]
    exact ih post st3 (fun st2 x hx => hp st2 x (by simp [hx]))

/-- C5 (corrected): if any directive of a script whose keyword is not FwMark
    carries a command outside the whitelist, the script fails to parse; and
    when every earlier line is clean and the command is the first offending
    one of its line, the error text contains the directive keyword, the
    offending command, and the script name — as in the PostDown/echo
    example. -/
theorem C5_command_validation (content nm raw k0 cmdsRaw : Str)
    (kw : RoutingKeyword) (pre post : List Str) (good : List Str) (cmd : Str)
    (rest2 : List Str)
    (hlines : rustLines content = pre ++ raw :: post)
    (hpre : ∀ st2 x, x ∈ pre → ∃ st3, procLine nm st2 x = .ok st3)
    (hskip : ((trimStr raw).isEmpty || startsWithCh '#' (trimStr raw)) = false)
    (hsp : splitOnce '=' (trimStr raw) = some (k0, cmdsRaw))
    (hkw : RoutingKeyword.fromStr (trimStr k0) = some kw)
    (hfw : kw ≠ RoutingKeyword.FwMark)
    (hparts : splitCmds cmdsRaw = good ++ cmd :: rest2)
    (hgood : ∀ c ∈ good, goodCmd c = true)
    (hbad : goodCmd cmd = false) :
    parse_routing_keywords content nm = .error (errInvalidCmd cmd kw nm)
    ∧ containsSub kw.dbg (errInvalidCmd cmd kw nm) = true
    ∧ containsSub cmd (errInvalidCmd cmd kw nm) = true
    ∧ containsSub nm (errInvalidCmd cmd kw nm) = true := by
  have herr := procLine_err nm raw k0 cmdsRaw kw good cmd rest2 hskip hsp hkw
    hfw hparts hgood hbad
  have hfail : procLines nm (rustLines content) {} = .error (errInvalidCmd cmd kw nm) := by
    rw [hlines]
    exact procLines_err nm raw _ herr pre post {} hpre
  refine ⟨?_, ?_, ?_, ?_⟩
  · unfold parse_routing_keywords
    rw [hfail]
  · exact containsSub_parts kw.dbg _
      (("Invalid command ".data) ++ [sq] ++ cmd ++ [sq] ++ (" for ".data))
      ((" in script ".data) ++ [sq] ++ nm ++ [sq]
        ++ (". Only iptables/ip/ip6tables allowed.".data))
      (by simp [errInvalidCmd])
  · exact containsSub_parts cmd _
      (("Invalid command ".data) ++ [sq])
      ([sq] ++ (" for ".data) ++ kw.dbg ++ (" in script ".data) ++ [sq] ++ nm
        ++ [sq] ++ (". Only iptables/ip/ip6tables allowed.".data))
      (by simp [errInvalidCmd])
  · exact containsSub_parts nm _
      (("Invalid command ".data) ++ [sq] ++ cmd ++ [sq] ++ (" for ".data)
        ++ kw.dbg ++ (" in script ".data) ++ [sq])
      ([sq] ++ (". Only iptables/ip/ip6tables allowed.".data))
      (by simp [errInvalidCmd])

/-- Witness for C5: the PostDown/echo script from the spec example. -/
theorem C5_command_validation_witness :
    parse_routing_keywords ("PostDown = echo done; echo really_done".data)
        ("multi".data)
      = .error (errInvalidCmd ("echo done".data) RoutingKeyword.PostDown ("multi".data))
    ∧ containsSub (RoutingKeyword.PostDown.dbg)
        (errInvalidCmd ("echo done".data) RoutingKeyword.PostDown ("multi".data)) = true
    ∧ containsSub ("echo done".data)
        (errInvalidCmd ("echo done".data) RoutingKeyword.PostDown ("multi".data)) = true
    ∧ containsSub ("multi".data)
        (errInvalidCmd ("echo done".data) RoutingKeyword.PostDown ("multi".data)) = true :=
  C5_command_validation ("PostDown = echo done; echo really_done".data)
    ("multi".data) ("PostDown = echo done; echo really_done".data)
    ("PostDown ".data) (" echo done; echo really_done".data)
    RoutingKeyword.PostDown [] [] [] ("echo done".data) [("echo really_done".data)]
    (by decide) (by simp) (by decide) (by decide) (by decide) (by decide)
    (by decide) (by simp) (by decide)

/-- C5 counterexample: a script with an unknown keyword on an earlier line
    and an invalid PostDown command on a later one fails with the
    unknown-keyword error, which mentions neither PostDown nor echo, although
    the claim requires the error text to contain both. -/
theorem C5_counterexample :
    parse_routing_keywords ("Foo = bar\nPostDown = echo done".data) ("test".data)
      = .error (errUnknownKw ("Foo".data) ("test".data))
    ∧ containsSub ("PostDown".data) (errUnknownKw ("Foo".data) ("test".data)) = false
    ∧ containsSub ("echo".data) (errUnknownKw ("Foo".data) ("test".data)) = false :=
  ⟨by decide, by decide, by decide⟩

/-! ## C7: peer sections ending in a comment line -/

/-- C7: evaluating parse_config at the failing input.  The text opens a peer
    section, assigns a public key, and ends with a comment line; the parse
    succeeds but returns an empty peer list, because the accumulated peer is
    appended only from an attribute line whose successor is a section header
    or the end of the lexed input. -/
theorem C7_comment_terminated_peer_dropped :
    parse_config envAny ("[Peer]\nPublicKey = A\n# Name = X".data)
      = .ok ({} : WireguardConfig) := by
  decide

/-! ## C8: parse error reporting -/

/-- Whether a trimmed line is accepted by the lexer of parse_config: a
    bracketed section header, a comment, or a line containing an equals
    sign. -/
def lexable (l : Str) : Bool :=
  (match stripChPre '[' l with
   | some l1 => (stripChSuf ']' l1).isSome
   | none => false)
  || (stripChPre '#' l).isSome
  || (splitOnce '=' l).isSome

/-- A non-lexable line produces exactly the line-numbered error. -/
theorem lexLine_not_lexable (i : Nat) (l : Str) (h : lexable l = false) :
    lexLine i l = .error (errCouldntParse i l) := by
  unfold lexable at h
  unfold lexLine
  rcases hp : stripChPre '[' l with _ | l1
  · simp only [hp] at h ⊢
    unfold lexLine.lexRest
    rcases hc : stripChPre '#' l with _ | c
    · simp only [hc] at h ⊢
      rcases hs : splitOnce '=' l with _ | kv
      · rfl
      · simp [hs] at h
    · simp [hc] at h
  · simp only [hp] at h ⊢
    rcases hq : stripChSuf ']' l1 with _ | sec
    · simp only [hq] at h ⊢
      unfold lexLine.lexRest
      rcases hc : stripChPre '#' l with _ | c
      · simp only [hc] at h ⊢
        rcases hs : splitOnce '=' l with _ | kv
        · rfl
        · simp [hs] at h
      · simp [hc] at h
    · simp [hq] at h

/-- A lexable line produces a token that does not depend on the index. -/
theorem lexLine_lexable (l : Str) (h : lexable l = true) :
    ∃ t, ∀ i, lexLine i l = .ok t := by
  unfold lexable at h
  rcases hp : stripChPre '[' l with _ | l1
  · rcases hc : stripChPre '#' l with _ | c
    · rcases hs : splitOnce '=' l with _ | kv
      · simp [hp, hc, hs] at h
      · exact ⟨.Attribute (trimStr kv.1) (trimStr kv.2),
          fun i => by simp [lexLine, lexLine.lexRest, hp, hc, hs]⟩
    · exact ⟨.Comment (trimStr c),
        fun i => by simp [lexLine, lexLine.lexRest, hp, hc]⟩
  · rcases hq : stripChSuf ']' l1 with _ | sec
    · rcases hc : stripChPre '#' l with _ | c
      · rcases hs : splitOnce '=' l with _ | kv
        · simp [hp, hq, hc, hs] at h
        · exact ⟨.Attribute (trimStr kv.1) (trimStr kv.2),
            fun i => by simp [lexLine, lexLine.lexRest, hp, hq, hc, hs]⟩
      · exact ⟨.Comment (trimStr c),
          fun i => by simp [lexLine, lexLine.lexRest, hp, hq, hc]⟩
    · exact ⟨.Section (trimStr sec), fun i => by simp [lexLine, hp, hq]⟩

/-- The lexer aborts at the first non-blank line it cannot classify,
    reporting that line under its position in the raw split. -/
theorem lexLines_err (l : Str) (hl : l ≠ []) (hlex : lexable l = false) :
    ∀ (pre post : List Str) (i : Nat),
      (∀ x ∈ pre, x = [] ∨ lexable x = true) →
      lexLines i (pre ++ l :: post) = .error (errCouldntParse (i + pre.length) l) := by
  intro pre
  induction pre with
  | nil =>
    intro post i hp
    have hne : l.isEmpty = false := by simp [List.isEmpty_iff, hl]
    simp only [List.nil_append, List.length_nil, Nat.add_zero]
    unfold lexLines
    rw [lexLine_not_lexable i l hlex]
    simp [hne]
  | cons x xs ih =>
    intro post i hp
    rcases hp x (by simp) with hx | hx
    · subst hx
      simp only [List.cons_append]
      unfold lexLines
      simp only [List.isEmpty_nil, if_true]
      rw [ih post (i + 1) (fun y hy => hp y (by simp [hy]))]
      have h3 : i + 1 + xs.length = i + xs.length + 1 := by omega
      rw [h3]
      simp [Nat.add_assoc]
    · have hxne : x.isEmpty = false := by
        cases x with
        | nil => exact absurd hx (by decide)
        | cons c t => rfl
      obtain ⟨t, ht⟩ := lexLine_lexable x hx
      simp only [List.cons_append]
      unfold lexLines
      rw [ht i]
      simp only [hxne, Bool.false_eq_true, if_false]
      rw [ih post (i + 1) (fun y hy => hp y (by simp [hy]))]
      have h3 : i + 1 + xs.length = i + xs.length + 1 := by omega
      rw [h3]
      simp [Nat.add_assoc]

/-- C8 (corrected): a line matching neither a section, a comment, nor an
    assignment aborts the parse with an error carrying its 1-based position
    in the raw line split and its trimmed text; an unrecognized key inside a
    known section and an unknown section name abort with errors naming only
    the key or section, with no line number. -/
theorem C8_error_reporting :
    (∀ (env : CodecEnv) (s : Str) (pre : List Str) (l : Str) (post : List Str),
      (splitCh '\n' s).map trimStr = pre ++ l :: post →
      (∀ x ∈ pre, x = [] ∨ lexable x = true) →
      l ≠ [] → lexable l = false →
      parse_config env s = .error (errCouldntParse pre.length l)
        ∧ containsSub (Nat.toDigits 10 (pre.length + 1))
            (errCouldntParse pre.length l) = true
        ∧ containsSub l (errCouldntParse pre.length l) = true)
    ∧ (∀ env : CodecEnv, parse_config env ("[Interface]\nFoo = 1".data)
        = .error (("Unexpected Interface configuration key: Foo".data)))
    ∧ (∀ env : CodecEnv, parse_config env ("[Foo]".data)
        = .error (("Unexpected interface name Foo.".data))) := by
  refine ⟨?_, fun env => rfl, fun env => rfl⟩
  intro env s pre l post hsplit hpre hne hlex
  have hmem : l ∈ (splitCh '\n' s).map trimStr := by rw [hsplit]; simp
  obtain ⟨orig, _, horig⟩ := List.mem_map.mp hmem
  have hidem : trimStr l = l := by rw [← horig]; exact trimStr_idem orig
  have hcfg : lexConfig s = .error (errCouldntParse pre.length l) := by
    unfold lexConfig
    rw [hsplit]
    have := lexLines_err l hne hlex pre post 0 hpre
    simpa using this
  refine ⟨?_, ?_, ?_⟩
  · unfold parse_config
    rw [hcfg]
  · exact containsSub_parts (Nat.toDigits 10 (pre.length + 1)) _
      (("Couldn".data) ++ [sq] ++ ("t parse line ".data))
      ((": ".data) ++ [bq] ++ trimStr l ++ [bq])
      (by simp [errCouldntParse])
  · refine containsSub_parts l _
      (("Couldn".data) ++ [sq] ++ ("t parse line ".data)
        ++ Nat.toDigits 10 (pre.length + 1) ++ (": ".data) ++ [bq])
      [bq] ?_
    simp [errCouldntParse, hidem]

/-- Witness for C8 at a concrete unlexable line. -/
theorem C8_error_reporting_witness :
    parse_config envAny ("[Interface]\ngarbage".data)
      = .error (errCouldntParse 1 ("garbage".data))
    ∧ containsSub (Nat.toDigits 10 2) (errCouldntParse 1 ("garbage".data)) = true
    ∧ containsSub ("garbage".data) (errCouldntParse 1 ("garbage".data)) = true :=
  C8_error_reporting.1 envAny ("[Interface]\ngarbage".data)
    [("[Interface]".data)] ("garbage".data) [] (by decide)
    (by intro x hx; simp at hx; subst hx; right; decide) (by decide) (by decide)

/-- C8 counterexample: the unknown-key error carries neither the 1-based line
    number (2) nor the raw line text of the offending line. -/
theorem C8_counterexample :
    parse_config envAny ("[Interface]\nFoo = 1".data)
      = .error (("Unexpected Interface configuration key: Foo".data))
    ∧ containsSub ("2".data)
        (("Unexpected Interface configuration key: Foo".data)) = false
    ∧ containsSub ("Foo = 1".data)
        (("Unexpected Interface configuration key: Foo".data)) = false :=
  ⟨by decide, by decide, by decide⟩

/-! ## C1: the serialize-parse round trip -/

/-- The config of the C1 counterexample: a binding interface recorded under
    an active script bind flag, using only the explicit comment-key
    convention. -/
def cfgBind : WireguardConfig :=
  { interface := { binding_iface := some ("eth0".data), has_script_bind_iface := true } }

/-- The parse of the serialized counterexample config: the binding interface
    survives but has_script_bind_iface is reset, so the next serialization
    drops the BindIface line. -/
def cfgBindReparsed : WireguardConfig :=
  { interface := { binding_iface := some ("eth0".data), has_script_bind_iface := false } }

/-- C1 counterexample: parse_config never sets has_script_bind_iface, so a
    config with the flag set and a binding interface recorded does not round
    trip: the re-serialization loses its BindIface line. -/
theorem C1_counterexample :
    parse_config envAny (write_config cfgBind) = .ok cfgBindReparsed
    ∧ write_config cfgBindReparsed ≠ write_config cfgBind :=
  ⟨by decide, by decide⟩

/-- joinNl renders a line list with one newline after every line, the shape
    write_config produces. -/
def joinNl (ls : List Str) : Str := catMap (fun l => l ++ ['\n']) ls

/-- The text of one key-value line, without its newline. -/
def kvLine (kv : Str × Str) : Str := kv.1 ++ (" = ".data) ++ kv.2

/-- The logical lines of one serialized peer block. -/
def peerLines (p : Peer) : List Str :=
  ("[Peer]".data) :: (peerKvs p).map kvLine ++ [[]]

/-- The logical lines of a serialized config. -/
def writeLines (c : WireguardConfig) : List Str :=
  ("[Interface]".data) :: (ifaceKvs c.interface).map kvLine ++ [[]]
    ++ catMap peerLines c.peers

/-- catMap distributes over append. -/
theorem catMap_append {α β : Type} (f : α → List β) (a b : List α) :
    catMap f (a ++ b) = catMap f a ++ catMap f b := by
  induction a with
  | nil => rfl
  | cons x rest ih => simp [catMap, ih, List.append_assoc]

/-- catMap of a renderer with trailing newline is joinNl of the line list. -/
theorem catMap_kvRender (kvs : List (Str × Str)) :
    catMap kvRender kvs = joinNl (kvs.map kvLine) := by
  induction kvs with
  | nil => rfl
  | cons kv rest ih =>
    simp only [catMap, joinNl, List.map_cons, kvRender, kvLine, ih]

/-- joinNl distributes over append. -/
theorem joinNl_append (a b : List Str) : joinNl (a ++ b) = joinNl a ++ joinNl b :=
  catMap_append _ a b

/-- write_config is joinNl of its logical lines. -/
theorem write_config_eq_joinNl (c : WireguardConfig) :
    write_config c = joinNl (writeLines c) := by
  have hpeers : catMap peerRender c.peers = joinNl (catMap peerLines c.peers) := by
    induction c.peers with
    | nil => rfl
    | cons p rest ih =>
      simp only [catMap, peerRender, peerLines, ih, joinNl_append]
      simp [joinNl, catMap, catMap_kvRender, List.append_assoc]
  simp only [write_config, writeLines, catMap_kvRender, hpeers]
  simp [joinNl, catMap, catMap_append, List.append_assoc]

/-- Splitting a newline-terminated line (without inner newlines) off the
    front. -/
theorem splitCh_line (l r : Str) (h : '\n' ∉ l) :
    splitCh '\n' (l ++ '\n' :: r) = l :: splitCh '\n' r := by
  induction l with
  | nil => simp [splitCh]
  | cons c l2 ih =>
    have hc : c ≠ '\n' := by intro hcc; exact h (by simp [hcc])
    have ih2 := ih (fun hm => h (by simp [hm]))
    simp only [List.cons_append, splitCh, List.append_eq, ih2, hc, if_false]

/-- Splitting joinNl output followed by a remainder. -/
theorem splitCh_joinNl_append (ls : List Str) (b : Str)
    (h : ∀ l ∈ ls, '\n' ∉ l) :
    splitCh '\n' (joinNl ls ++ b) = ls ++ splitCh '\n' b := by
  induction ls with
  | nil => rfl
  | cons l rest ih =>
    have h1 : '\n' ∉ l := h l (by simp)
    have ih2 := ih (fun x hx => h x (by simp [hx]))
    have hshape : joinNl (l :: rest) ++ b = l ++ '\n' :: (joinNl rest ++ b) := by
      simp [joinNl, catMap, List.append_assoc]
    rw [hshape, splitCh_line _ _ h1, ih2]
    rfl

/-- Splitting a serialized config yields its logical lines plus one final
    empty segment. -/
theorem splitCh_joinNl (ls : List Str) (h : ∀ l ∈ ls, '\n' ∉ l) :
    splitCh '\n' (joinNl ls) = ls ++ [[]] := by
  have := splitCh_joinNl_append ls [] h
  simpa using this

/-- A value string that serializes and reparses without loss: stable under
    trimming on both ends and free of newlines. -/
def cleanStr (s : Str) : Prop := trimStart s = s ∧ trimEnd s = s ∧ '\n' ∉ s

instance (s : Str) : Decidable (cleanStr s) :=
  inferInstanceAs (Decidable (_ ∧ _ ∧ _))

/-- cleanStr lifted to optional values. -/
def cleanO : Option Str → Prop
  | none => True
  | some v => cleanStr v

instance (o : Option Str) : Decidable (cleanO o) :=
  match o with
  | none => .isTrue trivial
  | some v => inferInstanceAs (Decidable (cleanStr v))

/-- All serialized fields of a peer are clean. -/
def cleanPeer (p : Peer) : Prop :=
  cleanO p.name ∧ cleanO p.allowed_ips ∧ cleanO p.endpoint
    ∧ cleanO p.public_key ∧ cleanO p.persistent_keepalive

instance (p : Peer) : Decidable (cleanPeer p) :=
  inferInstanceAs (Decidable (_ ∧ _ ∧ _ ∧ _ ∧ _))

/-- All serialized fields of an interface are clean. -/
def cleanIface (i : Interface) : Prop :=
  cleanO i.name ∧ cleanO i.routing_script_name ∧ cleanO i.address
    ∧ cleanO i.listen_port ∧ cleanO i.private_key ∧ cleanO i.dns
    ∧ cleanO i.table ∧ cleanO i.mtu ∧ cleanO i.pre_up ∧ cleanO i.post_up
    ∧ cleanO i.pre_down ∧ cleanO i.post_down ∧ cleanO i.fwmark

instance (i : Interface) : Decidable (cleanIface i) :=
  inferInstanceAs (Decidable (_ ∧ _ ∧ _ ∧ _ ∧ _ ∧ _ ∧ _ ∧ _ ∧ _ ∧ _ ∧ _ ∧ _ ∧ _))

/-- All serialized fields of a config are clean. -/
def cleanCfg (c : WireguardConfig) : Prop :=
  cleanIface c.interface ∧ ∀ p ∈ c.peers, cleanPeer p

instance (c : WireguardConfig) : Decidable (cleanCfg c) :=
  inferInstanceAs (Decidable (_ ∧ _))

/-- A peer with at least one plain (non-comment) attribute populated, the
    condition under which the parser closes the peer section. -/
def peerHasAttr (p : Peer) : Prop :=
  (p.allowed_ips.isSome || p.endpoint.isSome || p.public_key.isSome
    || p.persistent_keepalive.isSome) = true

instance (p : Peer) : Decidable (peerHasAttr p) :=
  inferInstanceAs (Decidable (_ = true))

/-! ### Trim behaviour of serialized lines -/

/-- trimStart keeps a string headed by a non-whitespace character. -/
theorem trimStart_cons_nonws (c : Char) (r : Str) (hc : wsp c = false) :
    trimStart (c :: r) = c :: r := by
  simp [trimStart, List.dropWhile_cons, hc]

/-- A dropWhile-stable nonempty list is headed by a non-matching element. -/
theorem dropWhile_stable_head {p : Char → Bool} {c : Char} {t : Str}
    (h : List.dropWhile p (c :: t) = c :: t) : p c = false := by
  by_cases hp : p c = true
  · exfalso
    rw [List.dropWhile_cons, if_pos hp] at h
    have hle : (List.dropWhile p t).length ≤ t.length :=
      (List.dropWhile_suffix p).length_le
    rw [h] at hle
    simp at hle
  · revert hp; cases p c <;> simp

/-- trimEnd stability expressed through the reversed list. -/
theorem trimEnd_stable_rev {s : Str} (h : trimEnd s = s) :
    List.dropWhile wsp s.reverse = s.reverse := by
  have := congrArg List.reverse h
  rwa [trimEnd, List.reverse_reverse] at this

/-- Appending to the left of a trimEnd-stable nonempty string keeps trimEnd
    stable. -/
theorem trimEnd_append_stable (l v : Str) (hv : trimEnd v = v) (hne : v ≠ []) :
    trimEnd (l ++ v) = l ++ v := by
  have hrev := trimEnd_stable_rev hv
  rcases hv' : v.reverse with _ | ⟨c, t⟩
  · exact absurd (by simpa using congrArg List.reverse hv') hne
  · rw [hv'] at hrev
    have hc : wsp c = false := dropWhile_stable_head hrev
    have : trimEnd (l ++ v)
        = (List.dropWhile wsp (c :: (t ++ l.reverse))).reverse := by
      simp [trimEnd, List.reverse_append, hv']
    rw [this, List.dropWhile_cons, if_neg (by simp [hc])]
    have : v = (c :: t).reverse := by
      rw [← hv', List.reverse_reverse]
    simp [this, List.reverse_append]

/-- trimEnd of a key followed by the assignment separator: exactly the final
    space goes. -/
theorem trimEnd_kv_empty (K : Str) (hK : trimEnd K = K) (_hne : K ≠ []) :
    trimEnd (K ++ (" = ".data)) = K ++ (" =".data) := by
  have hrev := trimEnd_stable_rev hK
  have hsh : (K ++ (" = ".data)).reverse = ' ' :: '=' :: ' ' :: K.reverse := by
    simp [List.reverse_append]
  rw [trimEnd, hsh, List.dropWhile_cons,
    if_pos (show wsp ' ' = true from by decide), List.dropWhile_cons,
    if_neg (show ¬wsp '=' = true from by decide)]
  simp

/-- Splitting at the first equals sign when the left part has none. -/
theorem splitOnce_append (a b : Str) (h : '=' ∉ a) :
    splitOnce '=' (a ++ '=' :: b) = some (a, b) := by
  induction a with
  | nil => simp [splitOnce]
  | cons c a2 ih =>
    have hc : c ≠ '=' := by intro hcc; exact h (by simp [hcc])
    have ih2 := ih (fun hm => h (by simp [hm]))
    simp [splitOnce, hc, ih2]

/-- Trimming a key with its separating space recovers the key. -/
theorem trim_key_space (c : Char) (K2 : Str) (hc : wsp c = false)
    (hK : trimEnd (c :: K2) = c :: K2) :
    trimStr ((c :: K2) ++ [' ']) = c :: K2 := by
  have hrev := trimEnd_stable_rev hK
  have h1 : trimStart ((c :: K2) ++ [' ']) = (c :: K2) ++ [' '] := by
    rw [List.cons_append]
    exact trimStart_cons_nonws _ _ hc
  rw [trimStr, h1]
  have hsh : ((c :: K2) ++ [' '] : Str).reverse = ' ' :: (c :: K2).reverse := by
    simp
  rw [trimEnd, hsh, List.dropWhile_cons,
    if_pos (show wsp ' ' = true from by decide), hrev, List.reverse_reverse]

/-- Trimming the separating space with a clean value recovers the value. -/
theorem trim_space_val (v : Str) (hv1 : trimStart v = v) (hv2 : trimEnd v = v) :
    trimStr (' ' :: v) = v := by
  have h1 : trimStart (' ' :: v) = trimStart v := by
    rw [trimStart, List.dropWhile_cons,
      if_pos (show wsp ' ' = true from by decide)]
    rfl
  rw [trimStr, h1, hv1, hv2]

/-- The trimmed text of a serialized key-value line. -/
theorem trim_kvLine (c : Char) (K2 v : Str) (hc : wsp c = false)
    (hK : trimEnd (c :: K2) = c :: K2)
    (hv1 : trimStart v = v) (hv2 : trimEnd v = v) :
    trimStr ((c :: K2) ++ (" = ".data) ++ v)
      = (c :: K2) ++ (if v.isEmpty then (" =".data) else (" = ".data) ++ v) := by
  cases v with
  | nil =>
    simp only [List.append_nil, List.isEmpty_nil, if_true]
    have h1 : trimStart ((c :: K2) ++ (" = ".data)) = (c :: K2) ++ (" = ".data) := by
      rw [List.cons_append]
      exact trimStart_cons_nonws _ _ hc
    rw [trimStr, h1, trimEnd_kv_empty _ hK (by simp)]
  | cons d v2 =>
    simp only [List.isEmpty_cons, Bool.false_eq_true, if_false]
    have h1 : trimStart ((c :: K2) ++ (" = ".data) ++ (d :: v2))
        = (c :: K2) ++ (" = ".data) ++ (d :: v2) := by
      rw [List.append_assoc, List.cons_append]
      exact trimStart_cons_nonws _ _ hc
    rw [trimStr, h1,
      trimEnd_append_stable ((c :: K2) ++ (" = ".data)) (d :: v2) hv2 (by simp)]
    simp [List.append_assoc]

/-! ### Lexing the serialized lines -/

/-- The comment content recorded by the lexer for a serialized comment-key
    line. -/
def commentContent (K v : Str) : Str :=
  K ++ (if v.isEmpty then (" =".data) else (" = ".data) ++ v)

/-- The lexer turns a serialized plain key-value line into its attribute. -/
theorem lexLine_attrKV (i : Nat) (c : Char) (K2 v : Str) (hc : wsp c = false)
    (hcb : c ≠ '[') (hch : c ≠ '#') (heq : '=' ∉ (c :: K2 : Str))
    (hK : trimEnd (c :: K2) = c :: K2)
    (hv1 : trimStart v = v) (hv2 : trimEnd v = v) :
    lexLine i (trimStr ((c :: K2) ++ (" = ".data) ++ v))
      = .ok (.Attribute (c :: K2) v) := by
  rw [trim_kvLine c K2 v hc hK hv1 hv2]
  have heqsp : '=' ∉ ((c :: K2) ++ [' '] : Str) := by
    intro hm
    rcases List.mem_append.mp hm with hm1 | hm1
    · exact heq hm1
    · simp at hm1
  cases v with
  | nil =>
    simp only [List.isEmpty_nil, if_true]
    have hsh : ((c :: K2) ++ (" =".data) : Str) = ((c :: K2) ++ [' ']) ++ '=' :: [] := by
      simp
    rw [hsh]
    unfold lexLine
    rw [show stripChPre '[' (((c :: K2) ++ [' ']) ++ '=' :: []) = none from by
      simp [stripChPre, hcb]]
    unfold lexLine.lexRest
    rw [show stripChPre '#' (((c :: K2) ++ [' ']) ++ '=' :: []) = none from by
      simp [stripChPre, hch]]
    rw [splitOnce_append _ _ heqsp]
    dsimp only
    rw [trim_key_space c K2 hc hK]
    rfl
  | cons d v2 =>
    simp only [List.isEmpty_cons, Bool.false_eq_true, if_false]
    have hsh : ((c :: K2) ++ ((" = ".data) ++ (d :: v2)) : Str)
        = ((c :: K2) ++ [' ']) ++ '=' :: (' ' :: (d :: v2)) := by
      simp
    rw [hsh]
    unfold lexLine
    rw [show stripChPre '[' (((c :: K2) ++ [' ']) ++ '=' :: (' ' :: (d :: v2))) = none from by
      simp [stripChPre, hcb]]
    unfold lexLine.lexRest
    rw [show stripChPre '#' (((c :: K2) ++ [' ']) ++ '=' :: (' ' :: (d :: v2))) = none from by
      simp [stripChPre, hch]]
    rw [splitOnce_append _ _ heqsp]
    dsimp only
    rw [trim_key_space c K2 hc hK]
    rw [show trimStr (' ' :: (d :: v2)) = d :: v2 from trim_space_val _ hv1 hv2]

/-- The lexer turns a serialized comment-key line into its comment token. -/
theorem lexLine_commentKV (i : Nat) (c : Char) (K2 v : Str) (hc : wsp c = false)
    (hK : trimEnd (c :: K2) = c :: K2)
    (hv1 : trimStart v = v) (hv2 : trimEnd v = v) :
    lexLine i (trimStr (('#' :: ' ' :: c :: K2) ++ (" = ".data) ++ v))
      = .ok (.Comment (commentContent (c :: K2) v)) := by
  have hKr := trimEnd_stable_rev hK
  have hK3 : trimEnd ('#' :: ' ' :: c :: K2) = '#' :: ' ' :: c :: K2 := by
    rcases hrv : (c :: K2 : Str).reverse with _ | ⟨x, t⟩
    · exact absurd (by simpa using congrArg List.reverse hrv)
        (List.cons_ne_nil c K2)
    · rw [hrv] at hKr
      have hx : wsp x = false := dropWhile_stable_head hKr
      have hsh : ('#' :: ' ' :: c :: K2 : Str).reverse = x :: (t ++ [' ', '#']) := by
        have : ('#' :: ' ' :: c :: K2 : Str).reverse
            = (c :: K2 : Str).reverse ++ [' ', '#'] := by simp
        rw [this, hrv]
        simp
      rw [trimEnd, hsh, List.dropWhile_cons, if_neg (by simp [hx]), ← hsh,
        List.reverse_reverse]
  have htr : trimStr (('#' :: ' ' :: c :: K2) ++ (" = ".data) ++ v)
      = ('#' :: ' ' :: c :: K2)
        ++ (if v.isEmpty then (" =".data) else (" = ".data) ++ v) :=
    trim_kvLine '#' (' ' :: c :: K2) v (by decide) hK3 hv1 hv2
  rw [htr]
  have hcons : (('#' :: ' ' :: c :: K2)
        ++ (if v.isEmpty then (" =".data) else (" = ".data) ++ v) : Str)
      = '#' :: (' ' :: ((c :: K2)
        ++ (if v.isEmpty then (" =".data) else (" = ".data) ++ v))) := rfl
  rw [hcons]
  unfold lexLine
  rw [show stripChPre '[' ('#' :: (' ' :: ((c :: K2)
      ++ (if v.isEmpty then (" =".data) else (" = ".data) ++ v)))) = none from rfl]
  unfold lexLine.lexRest
  rw [show stripChPre '#' ('#' :: (' ' :: ((c :: K2)
      ++ (if v.isEmpty then (" =".data) else (" = ".data) ++ v))))
      = some (' ' :: ((c :: K2)
        ++ (if v.isEmpty then (" =".data) else (" = ".data) ++ v))) from rfl]
  have htr2 : trimStr (' ' :: ((c :: K2)
      ++ (if v.isEmpty then (" =".data) else (" = ".data) ++ v)))
      = commentContent (c :: K2) v := by
    have hstep : trimStart (' ' :: ((c :: K2)
        ++ (if v.isEmpty then (" =".data) else (" = ".data) ++ v)))
        = (c :: K2) ++ (if v.isEmpty then (" =".data) else (" = ".data) ++ v) := by
      rw [trimStart, List.dropWhile_cons,
        if_pos (show wsp ' ' = true from by decide), List.cons_append]
      exact trimStart_cons_nonws _ _ hc
    rw [trimStr, hstep, commentContent]
    cases v with
    | nil =>
      simp only [List.isEmpty_nil, if_true]
      have hsh2 : ((c :: K2) ++ (" =".data) : Str).reverse
          = '=' :: ' ' :: (c :: K2).reverse := by simp
      rw [trimEnd, hsh2, List.dropWhile_cons,
        if_neg (show ¬wsp '=' = true from by decide), ← hsh2,
        List.reverse_reverse]
    | cons d v2 =>
      simp only [List.isEmpty_cons, Bool.false_eq_true, if_false]
      rw [← List.append_assoc]
      exact trimEnd_append_stable ((c :: K2) ++ (" = ".data)) (d :: v2) hv2 (by simp)
  dsimp only
  rw [htr2]

/-- The comment token of a serialized comment-key line splits back into its
    key and value. -/
theorem commentKV_parse (c : Char) (K2 v : Str) (hc : wsp c = false)
    (heq : '=' ∉ (c :: K2 : Str)) (hK : trimEnd (c :: K2) = c :: K2)
    (hv1 : trimStart v = v) (hv2 : trimEnd v = v) :
    ∃ k0 v0, splitOnce '=' (commentContent (c :: K2) v) = some (k0, v0)
      ∧ trimStr k0 = c :: K2 ∧ trimStr v0 = v := by
  have heqsp : '=' ∉ ((c :: K2) ++ [' '] : Str) := by
    intro hm
    rcases List.mem_append.mp hm with hm1 | hm1
    · exact heq hm1
    · simp at hm1
  cases v with
  | nil =>
    refine ⟨(c :: K2) ++ [' '], [], ?_, trim_key_space c K2 hc hK, rfl⟩
    have hsh : commentContent (c :: K2) [] = ((c :: K2) ++ [' ']) ++ '=' :: [] := by
      simp [commentContent]
    rw [hsh, splitOnce_append _ _ heqsp]
  | cons d v2 =>
    refine ⟨(c :: K2) ++ [' '], ' ' :: (d :: v2), ?_, trim_key_space c K2 hc hK,
      trim_space_val _ hv1 hv2⟩
    have hsh : commentContent (c :: K2) (d :: v2)
        = ((c :: K2) ++ [' ']) ++ '=' :: (' ' :: (d :: v2)) := by
      simp [commentContent]
    rw [hsh, splitOnce_append _ _ heqsp]

/-! ### Lexing whole segments -/

/-- The raw lines of one optional field, as write_config emits them. -/
def optLines (K : Str) (v : Option Str) : List Str :=
  match v with
  | some x => [K ++ (" = ".data) ++ x]
  | none => []

/-- The lexed token of one optional plain attribute. -/
def attrT (K : Str) (v : Option Str) : List LineType :=
  match v with
  | some x => [.Attribute K x]
  | none => []

/-- The lexed token of one optional comment-carried field; the key here is
    the inner key without the comment marker. -/
def commentT (K : Str) (v : Option Str) : List LineType :=
  match v with
  | some x => [.Comment (commentContent K x)]
  | none => []

/-- L lexes to ts: trimming and lexing the lines of L prepends ts to whatever
    the rest produces, shifting indices by the number of lines. -/
def SegLex (L : List Str) (ts : List LineType) : Prop :=
  ∀ (i : Nat) (R : List Str),
    lexLines i (L.map trimStr ++ R)
      = (lexLines (i + L.length) R).map (fun ts2 => ts ++ ts2)

/-- The empty segment. -/
theorem segLex_nil : SegLex [] [] := by
  intro i R
  rcases h : lexLines i R with e | ts <;> simp [h, Except.map]

/-- A blank separator line. -/
theorem segLex_blank : SegLex [[]] [] := by
  intro i R
  have h0 : lexLines i (([] : Str) :: R) = lexLines (i + 1) R := rfl
  rw [show (([[]] : List Str).map trimStr ++ R) = ([] : Str) :: R from rfl, h0]
  rcases h : lexLines (i + 1) R with e | ts <;> simp [h, Except.map]

/-- A single line whose trim lexes to a token. -/
theorem segLex_single (l : Str) (t : LineType) (hne : trimStr l ≠ [])
    (hlex : ∀ i, lexLine i (trimStr l) = .ok t) : SegLex [l] [t] := by
  intro i R
  have hemp : (trimStr l).isEmpty = false := by simp [List.isEmpty_iff, hne]
  rw [show (([l] : List Str).map trimStr ++ R) = trimStr l :: R from rfl]
  have h0 : lexLines i (trimStr l :: R)
      = (if (trimStr l).isEmpty then lexLines (i + 1) R
         else
           match lexLine i (trimStr l) with
           | .error e => .error e
           | .ok t2 =>
             match lexLines (i + 1) R with
             | .error e => .error e
             | .ok ts => .ok (t2 :: ts)) := rfl
  rw [h0]
  simp only [hemp, Bool.false_eq_true, if_false]
  rw [hlex i]
  rcases h : lexLines (i + 1) R with e | ts <;> simp [h, Except.map]

/-- Segments concatenate. -/
theorem segLex_append {L1 L2 : List Str} {ts1 ts2 : List LineType}
    (h1 : SegLex L1 ts1) (h2 : SegLex L2 ts2) :
    SegLex (L1 ++ L2) (ts1 ++ ts2) := by
  intro i R
  rw [List.map_append, List.append_assoc, h1, h2]
  have hlen : i + L1.length + L2.length = i + (L1 ++ L2).length := by
    simp [List.length_append]
    omega
  rw [hlen]
  rcases h : lexLines (i + (L1 ++ L2).length) R with e | ts <;>
    simp [h, Except.map, List.append_assoc]

/-- One optional plain attribute segment. -/
theorem segLex_attr (c : Char) (K2 : Str) (v : Option Str) (hc : wsp c = false)
    (hcb : c ≠ '[') (hch : c ≠ '#') (heq : '=' ∉ (c :: K2 : Str))
    (hK : trimEnd (c :: K2) = c :: K2) (hv : cleanO v) :
    SegLex (optLines (c :: K2) v) (attrT (c :: K2) v) := by
  cases v with
  | none => exact segLex_nil
  | some x =>
    obtain ⟨hx1, hx2, _⟩ := hv
    refine segLex_single _ _ ?_ (fun i => lexLine_attrKV i c K2 x hc hcb hch heq hK hx1 hx2)
    rw [trim_kvLine c K2 x hc hK hx1 hx2]
    simp

/-- One optional comment-key segment; the emitted key carries the comment
    marker, the token keeps the inner key. -/
theorem segLex_comment (c : Char) (K2 : Str) (v : Option Str) (hc : wsp c = false)
    (hK : trimEnd (c :: K2) = c :: K2) (hv : cleanO v) :
    SegLex (optLines ('#' :: ' ' :: c :: K2) v) (commentT (c :: K2) v) := by
  cases v with
  | none => exact segLex_nil
  | some x =>
    obtain ⟨hx1, hx2, _⟩ := hv
    refine segLex_single _ _ ?_ (fun i => lexLine_commentKV i c K2 x hc hK hx1 hx2)
    have hK3 : trimEnd ('#' :: ' ' :: c :: K2) = '#' :: ' ' :: c :: K2 := by
      have hKr := trimEnd_stable_rev hK
      rcases hrv : (c :: K2 : Str).reverse with _ | ⟨y, t⟩
      · exact absurd (by simpa using congrArg List.reverse hrv)
          (List.cons_ne_nil c K2)
      · rw [hrv] at hKr
        have hy : wsp y = false := dropWhile_stable_head hKr
        have hsh : ('#' :: ' ' :: c :: K2 : Str).reverse = y :: (t ++ [' ', '#']) := by
          have hstep : ('#' :: ' ' :: c :: K2 : Str).reverse
              = (c :: K2 : Str).reverse ++ [' ', '#'] := by simp
          rw [hstep, hrv]
          simp
        rw [trimEnd, hsh, List.dropWhile_cons, if_neg (by simp [hy]), ← hsh,
          List.reverse_reverse]
    rw [trim_kvLine '#' (' ' :: c :: K2) x (by decide) hK3 hx1 hx2]
    simp

/-- A section header line segment. -/
theorem segLex_section_iface :
    SegLex [("[Interface]".data)] [.Section ("Interface".data)] := by
  refine segLex_single _ _ (by decide) (fun i => ?_)
  rw [show trimStr ("[Interface]".data) = ("[Interface]".data) from by decide]
  rfl

/-- The peer section header segment. -/
theorem segLex_section_peer :
    SegLex [("[Peer]".data)] [.Section ("Peer".data)] := by
  refine segLex_single _ _ (by decide) (fun i => ?_)
  rw [show trimStr ("[Peer]".data) = ("[Peer]".data) from by decide]
  rfl

/-! ### The lexed image of a serialized config -/

/-- The lexed tokens of the interface field lines, with the BindIface line
    absent (the round trip requires it not to be emitted). -/
def ifaceLex (i : Interface) : List LineType :=
  commentT ("Name".data) i.name
    ++ commentT ("RoutingScriptName".data) i.routing_script_name
    ++ attrT ("Address".data) i.address
    ++ attrT ("ListenPort".data) i.listen_port
    ++ attrT ("PrivateKey".data) i.private_key
    ++ attrT ("DNS".data) i.dns
    ++ attrT ("Table".data) i.table
    ++ attrT ("MTU".data) i.mtu
    ++ attrT ("PreUp".data) i.pre_up
    ++ attrT ("PostUp".data) i.post_up
    ++ attrT ("PreDown".data) i.pre_down
    ++ attrT ("PostDown".data) i.post_down
    ++ attrT ("FwMark".data) i.fwmark

/-- The lexed tokens of one serialized peer block. -/
def peerLex (p : Peer) : List LineType :=
  .Section ("Peer".data)
    :: (commentT ("Name".data) p.name
      ++ attrT ("AllowedIPs".data) p.allowed_ips
      ++ attrT ("Endpoint".data) p.endpoint
      ++ attrT ("PublicKey".data) p.public_key
      ++ attrT ("PersistentKeepalive".data) p.persistent_keepalive)

/-- Peeling one optional pair off the interface key-value array. -/
theorem map_kvLine_zip (K : Str) (v : Option Str)
    (rest : List (Option (Str × Str))) :
    (List.filterMap id (zipKV K v :: rest)).map kvLine
      = optLines K v ++ (List.filterMap id rest).map kvLine := by
  cases v <;> simp [zipKV, optLines, List.filterMap_cons, kvLine]

/-- Peeling a filtered-out pair off the key-value array. -/
theorem map_kvLine_none (rest : List (Option (Str × Str))) :
    (List.filterMap id ((none : Option (Str × Str)) :: rest)).map kvLine
      = (List.filterMap id rest).map kvLine := by
  simp [List.filterMap_cons]

/-- The interface lines when the BindIface pair is filtered away. -/
theorem ifaceKvs_lines (i : Interface)
    (hbind : (zipKV ("# BindIface".data) i.binding_iface).filter
      (fun _ => i.has_script_bind_iface) = none) :
    (ifaceKvs i).map kvLine
      = optLines ("# Name".data) i.name
        ++ (optLines ("# RoutingScriptName".data) i.routing_script_name
        ++ (optLines ("Address".data) i.address
        ++ (optLines ("ListenPort".data) i.listen_port
        ++ (optLines ("PrivateKey".data) i.private_key
        ++ (optLines ("DNS".data) i.dns
        ++ (optLines ("Table".data) i.table
        ++ (optLines ("MTU".data) i.mtu
        ++ (optLines ("PreUp".data) i.pre_up
        ++ (optLines ("PostUp".data) i.post_up
        ++ (optLines ("PreDown".data) i.pre_down
        ++ (optLines ("PostDown".data) i.post_down
        ++ optLines ("FwMark".data) i.fwmark))))))))))) := by
  unfold ifaceKvs
  rw [hbind]
  rw [map_kvLine_zip, map_kvLine_none, map_kvLine_zip, map_kvLine_zip,
    map_kvLine_zip, map_kvLine_zip, map_kvLine_zip, map_kvLine_zip,
    map_kvLine_zip, map_kvLine_zip, map_kvLine_zip, map_kvLine_zip,
    map_kvLine_zip, map_kvLine_zip]
  simp

/-- The peer block key-value lines as optional segments. -/
theorem peerKvs_lines (p : Peer) :
    (peerKvs p).map kvLine
      = optLines ("# Name".data) p.name
        ++ (optLines ("AllowedIPs".data) p.allowed_ips
        ++ (optLines ("Endpoint".data) p.endpoint
        ++ (optLines ("PublicKey".data) p.public_key
        ++ optLines ("PersistentKeepalive".data) p.persistent_keepalive))) := by
  unfold peerKvs
  rw [map_kvLine_zip, map_kvLine_zip, map_kvLine_zip, map_kvLine_zip,
    map_kvLine_zip]
  simp

/-- The lines of an optional field contain no newline when the value is
    clean and the key has none. -/
theorem noNl_optLines (K : Str) (v : Option Str) (hK : '\n' ∉ K)
    (hv : cleanO v) : ∀ l ∈ optLines K v, '\n' ∉ l := by
  cases v with
  | none => intro l hl; simp [optLines] at hl
  | some x =>
    intro l hl
    simp only [optLines, List.mem_singleton] at hl
    subst hl
    intro hmem
    rcases List.mem_append.mp hmem with hm | hm
    · rcases List.mem_append.mp hm with hm2 | hm2
      · exact hK hm2
      · simp at hm2
    · exact hv.2.2 hm

/-- A segment-level SegLex for the interface field lines. -/
theorem segLex_iface (i : Interface) (hcl : cleanIface i)
    (hbind : (zipKV ("# BindIface".data) i.binding_iface).filter
      (fun _ => i.has_script_bind_iface) = none) :
    SegLex ((ifaceKvs i).map kvLine) (ifaceLex i) := by
  obtain ⟨h1, h2, h3, h4, h5, h6, h7, h8, h9, h10, h11, h12, h13⟩ := hcl
  rw [ifaceKvs_lines i hbind]
  unfold ifaceLex
  simp only [List.append_assoc]
  exact segLex_append (segLex_comment 'N' ("ame".data) i.name (by decide) (by decide) h1)
    (segLex_append (segLex_comment 'R' ("outingScriptName".data) i.routing_script_name
        (by decide) (by decide) h2)
      (segLex_append (segLex_attr 'A' ("ddress".data) i.address (by decide) (by decide)
          (by decide) (by decide) (by decide) h3)
        (segLex_append (segLex_attr 'L' ("istenPort".data) i.listen_port (by decide)
            (by decide) (by decide) (by decide) (by decide) h4)
          (segLex_append (segLex_attr 'P' ("rivateKey".data) i.private_key (by decide)
              (by decide) (by decide) (by decide) (by decide) h5)
            (segLex_append (segLex_attr 'D' ("NS".data) i.dns (by decide) (by decide)
                (by decide) (by decide) (by decide) h6)
              (segLex_append (segLex_attr 'T' ("able".data) i.table (by decide)
                  (by decide) (by decide) (by decide) (by decide) h7)
                (segLex_append (segLex_attr 'M' ("TU".data) i.mtu (by decide) (by decide)
                    (by decide) (by decide) (by decide) h8)
                  (segLex_append (segLex_attr 'P' ("reUp".data) i.pre_up (by decide)
                      (by decide) (by decide) (by decide) (by decide) h9)
                    (segLex_append (segLex_attr 'P' ("ostUp".data) i.post_up (by decide)
                        (by decide) (by decide) (by decide) (by decide) h10)
                      (segLex_append (segLex_attr 'P' ("reDown".data) i.pre_down
                          (by decide) (by decide) (by decide) (by decide) (by decide) h11)
                        (segLex_append (segLex_attr 'P' ("ostDown".data) i.post_down
                            (by decide) (by decide) (by decide) (by decide) (by decide) h12)
                          (segLex_attr 'F' ("wMark".data) i.fwmark (by decide) (by decide)
                            (by decide) (by decide) (by decide) h13))))))))))))

/-- A segment-level SegLex for one peer block, blank included. -/
theorem segLex_peer (p : Peer) (hcl : cleanPeer p) :
    SegLex (peerLines p) (peerLex p) := by
  obtain ⟨h1, h2, h3, h4, h5⟩ := hcl
  have hbody : SegLex ((peerKvs p).map kvLine ++ [[]])
      (commentT ("Name".data) p.name
        ++ attrT ("AllowedIPs".data) p.allowed_ips
        ++ attrT ("Endpoint".data) p.endpoint
        ++ attrT ("PublicKey".data) p.public_key
        ++ attrT ("PersistentKeepalive".data) p.persistent_keepalive) := by
    rw [peerKvs_lines p]
    have hseg := segLex_append
      (segLex_comment 'N' ("ame".data) p.name (by decide) (by decide) h1)
      (segLex_append (segLex_attr 'A' ("llowedIPs".data) p.allowed_ips (by decide)
          (by decide) (by decide) (by decide) (by decide) h2)
        (segLex_append (segLex_attr 'E' ("ndpoint".data) p.endpoint (by decide)
            (by decide) (by decide) (by decide) (by decide) h3)
          (segLex_append (segLex_attr 'P' ("ublicKey".data) p.public_key (by decide)
              (by decide) (by decide) (by decide) (by decide) h4)
            (segLex_append (segLex_attr 'P' ("ersistentKeepalive".data)
                p.persistent_keepalive (by decide) (by decide) (by decide) (by decide)
                (by decide) h5)
              segLex_blank))))
    have hL : optLines ("# Name".data) p.name
        ++ (optLines ("AllowedIPs".data) p.allowed_ips
        ++ (optLines ("Endpoint".data) p.endpoint
        ++ (optLines ("PublicKey".data) p.public_key
        ++ optLines ("PersistentKeepalive".data) p.persistent_keepalive))) ++ [[]]
        = optLines ("# Name".data) p.name
          ++ (optLines ("AllowedIPs".data) p.allowed_ips
          ++ (optLines ("Endpoint".data) p.endpoint
          ++ (optLines ("PublicKey".data) p.public_key
          ++ (optLines ("PersistentKeepalive".data) p.persistent_keepalive ++ [[]])))) := by
      simp [List.append_assoc]
    have hT : commentT ("Name".data) p.name
        ++ attrT ("AllowedIPs".data) p.allowed_ips
        ++ attrT ("Endpoint".data) p.endpoint
        ++ attrT ("PublicKey".data) p.public_key
        ++ attrT ("PersistentKeepalive".data) p.persistent_keepalive
        = commentT ("Name".data) p.name
          ++ (attrT ("AllowedIPs".data) p.allowed_ips
          ++ (attrT ("Endpoint".data) p.endpoint
          ++ (attrT ("PublicKey".data) p.public_key
          ++ (attrT ("PersistentKeepalive".data) p.persistent_keepalive ++ [])))) := by
      simp [List.append_assoc]
    rw [hL, hT]
    exact hseg
  have hsec := segLex_append segLex_section_peer hbody
  unfold peerLines peerLex
  intro i R
  have := hsec i R
  simpa [List.append_assoc] using this

/-- Membership in a catMap image. -/
theorem mem_catMap {α β : Type} (f : α → List β) (l : List α) (x : β) :
    x ∈ catMap f l ↔ ∃ a ∈ l, x ∈ f a := by
  induction l with
  | nil => simp [catMap]
  | cons a rest ih => simp [catMap, ih]

/-- All peer blocks lex as their token images. -/
theorem segLex_peersCat : ∀ (ps : List Peer), (∀ p ∈ ps, cleanPeer p) →
    SegLex (catMap peerLines ps) (catMap peerLex ps) := by
  intro ps
  induction ps with
  | nil => intro h; exact segLex_nil
  | cons p rest ih =>
    intro h
    exact segLex_append (segLex_peer p (h p (by simp)))
      (ih (fun q hq => h q (by simp [hq])))

/-- The lexer maps a serialized clean config (without a BindIface line) to
    its token image. -/
theorem lexConfig_write (c : WireguardConfig) (hclean : cleanCfg c)
    (hbind : (zipKV ("# BindIface".data) c.interface.binding_iface).filter
      (fun _ => c.interface.has_script_bind_iface) = none) :
    lexConfig (write_config c)
      = .ok (.Section ("Interface".data)
          :: (ifaceLex c.interface ++ catMap peerLex c.peers)) := by
  obtain ⟨hci, hcp⟩ := hclean
  obtain ⟨hc1, hc2, hc3, hc4, hc5, hc6, hc7, hc8, hc9, hc10, hc11, hc12, hc13⟩ := hci
  have hkvmem : ∀ l ∈ (ifaceKvs c.interface).map kvLine, '\n' ∉ l := by
    rw [ifaceKvs_lines c.interface hbind]
    intro l hl
    simp only [List.mem_append] at hl
    rcases hl with h | h | h | h | h | h | h | h | h | h | h | h | h
    · exact noNl_optLines _ _ (by decide) hc1 l h
    · exact noNl_optLines _ _ (by decide) hc2 l h
    · exact noNl_optLines _ _ (by decide) hc3 l h
    · exact noNl_optLines _ _ (by decide) hc4 l h
    · exact noNl_optLines _ _ (by decide) hc5 l h
    · exact noNl_optLines _ _ (by decide) hc6 l h
    · exact noNl_optLines _ _ (by decide) hc7 l h
    · exact noNl_optLines _ _ (by decide) hc8 l h
    · exact noNl_optLines _ _ (by decide) hc9 l h
    · exact noNl_optLines _ _ (by decide) hc10 l h
    · exact noNl_optLines _ _ (by decide) hc11 l h
    · exact noNl_optLines _ _ (by decide) hc12 l h
    · exact noNl_optLines _ _ (by decide) hc13 l h
  have hpeermem : ∀ l ∈ catMap peerLines c.peers, '\n' ∉ l := by
    intro l hl
    obtain ⟨p, hp, hlp⟩ := (mem_catMap peerLines c.peers l).mp hl
    obtain ⟨k1, k2, k3, k4, k5⟩ := hcp p hp
    simp only [peerLines, List.mem_cons, List.mem_append, List.mem_singleton] at hlp
    rcases hlp with (h | h) | (h | h)
    · subst h; decide
    · rw [peerKvs_lines p] at h
      simp only [List.mem_append] at h
      rcases h with h3 | h3 | h3 | h3 | h3
      · exact noNl_optLines _ _ (by decide) k1 l h3
      · exact noNl_optLines _ _ (by decide) k2 l h3
      · exact noNl_optLines _ _ (by decide) k3 l h3
      · exact noNl_optLines _ _ (by decide) k4 l h3
      · exact noNl_optLines _ _ (by decide) k5 l h3
    · subst h; simp
    · simp at h
  have hnl : ∀ l ∈ writeLines c, '\n' ∉ l := by
    intro l hl
    simp only [writeLines, List.mem_cons, List.mem_append, List.mem_singleton] at hl
    rcases hl with ((h | h) | (h | h)) | h
    · subst h; decide
    · exact hkvmem l h
    · subst h; simp
    · simp at h
    · exact hpeermem l h
  have hsplit : splitCh '\n' (write_config c) = writeLines c ++ [[]] := by
    rw [write_config_eq_joinNl]
    exact splitCh_joinNl _ hnl
  have hseg : SegLex (writeLines c ++ [[]])
      (.Section ("Interface".data)
        :: (ifaceLex c.interface ++ catMap peerLex c.peers)) := by
    have hass := segLex_append segLex_section_iface
      (segLex_append (segLex_iface c.interface
          ⟨hc1, hc2, hc3, hc4, hc5, hc6, hc7, hc8, hc9, hc10, hc11, hc12, hc13⟩ hbind)
        (segLex_append segLex_blank
          (segLex_append (segLex_peersCat c.peers hcp) segLex_blank)))
    intro i R
    have := hass i R
    simpa [writeLines, List.append_assoc] using this
  unfold lexConfig
  rw [hsplit]
  have hfin := hseg 0 []
  rw [List.append_nil] at hfin
  rw [hfin]
  have hnil : lexLines (0 + (writeLines c ++ [[]]).length) [] = .ok [] := rfl
  rw [hnil]
  simp [Except.map]

/-! ### Parsing the serialized token stream -/

/-- Merging a freshly parsed optional value over a previous field value. -/
def updO (new old : Option Str) : Option Str :=
  match new with
  | some x => some x
  | none => old

/-- updO over an empty previous value. -/
theorem updO_none (v : Option Str) : updO v none = v := by
  cases v <;> rfl

/-- The public key the parser derives from an optional private key. -/
def pkO (env : CodecEnv) : Option Str → Option Str
  | some k =>
    match generate_public_key env k with
    | .ok pk => some pk
    | .error _ => none
  | none => none

/-- Entering the Interface section. -/
theorem parseLines_section_iface (env : CodecEnv) (L : List LineType)
    (cfg : WireguardConfig) (b1 b2 : Bool) (tmp : Peer) :
    parseLines env (.Section ("Interface".data) :: L) cfg b1 b2 tmp
      = parseLines env L cfg true false tmp := rfl

/-- Entering a Peer section. -/
theorem parseLines_section_peer (env : CodecEnv) (L : List LineType)
    (cfg : WireguardConfig) (b1 b2 : Bool) (tmp : Peer) :
    parseLines env (.Section ("Peer".data) :: L) cfg b1 b2 tmp
      = parseLines env L cfg false true tmp := rfl

/-- The serialized interface Name comment segment. -/
theorem parse_seg_iname (env : CodecEnv) (v : Option Str) (rest : List LineType)
    (cfg : WireguardConfig) (tmp : Peer) (hv : cleanO v) :
    parseLines env (commentT ("Name".data) v ++ rest) cfg true false tmp
      = parseLines env rest
          { cfg with interface :=
            { cfg.interface with name := updO v cfg.interface.name } }
          true false tmp := by
  cases v with
  | none => rfl
  | some x =>
    obtain ⟨hx1, hx2, _⟩ := hv
    obtain ⟨k0, v0, hsp, hk, hv0⟩ :=
      commentKV_parse 'N' ("ame".data) x (by decide) (by decide) (by decide) hx1 hx2
    show parseLines env
        (.Comment (commentContent ("Name".data) x) :: rest) cfg true false tmp = _
    simp only [parseLines, hsp, hk, hv0]
    rfl

/-- The serialized RoutingScriptName comment segment. -/
theorem parse_seg_rsn (env : CodecEnv) (v : Option Str) (rest : List LineType)
    (cfg : WireguardConfig) (tmp : Peer) (hv : cleanO v) :
    parseLines env (commentT ("RoutingScriptName".data) v ++ rest) cfg true false tmp
      = parseLines env rest
          { cfg with interface :=
            { cfg.interface with
                routing_script_name := updO v cfg.interface.routing_script_name } }
          true false tmp := by
  cases v with
  | none => rfl
  | some x =>
    obtain ⟨hx1, hx2, _⟩ := hv
    obtain ⟨k0, v0, hsp, hk, hv0⟩ :=
      commentKV_parse 'R' ("outingScriptName".data) x (by decide) (by decide)
        (by decide) hx1 hx2
    show parseLines env
        (.Comment (commentContent ("RoutingScriptName".data) x) :: rest)
        cfg true false tmp = _
    simp only [parseLines, hsp, hk, hv0]
    rfl

/-- The serialized Address attribute segment: the emitted value passes the IP
    check by hypothesis. -/
theorem parse_seg_address (env : CodecEnv) (v : Option Str) (rest : List LineType)
    (cfg : WireguardConfig) (tmp : Peer)
    (hip : ∀ a, v = some a → is_ip_valid env (some a) = true) :
    parseLines env (attrT ("Address".data) v ++ rest) cfg true false tmp
      = parseLines env rest
          { cfg with interface :=
            { cfg.interface with address := updO v cfg.interface.address } }
          true false tmp := by
  cases v with
  | none => rfl
  | some x =>
    have hx := hip x rfl
    have h0 : parseLines env (.Attribute ("Address".data) x :: rest) cfg true false tmp
        = if ¬is_ip_valid env (some x) then
            .error (("Invalid IP address ".data) ++ x ++ (".".data))
          else
            parseLines env rest
              { cfg with interface :=
                { cfg.interface with address := some x } } true false tmp := rfl
    show parseLines env (.Attribute ("Address".data) x :: rest) cfg true false tmp = _
    rw [h0, if_neg (by simp [hx])]
    rfl

/-- The serialized ListenPort attribute segment. -/
theorem parse_seg_lport (env : CodecEnv) (v : Option Str) (rest : List LineType)
    (cfg : WireguardConfig) (tmp : Peer) :
    parseLines env (attrT ("ListenPort".data) v ++ rest) cfg true false tmp
      = parseLines env rest
          { cfg with interface :=
            { cfg.interface with listen_port := updO v cfg.interface.listen_port } }
          true false tmp := by
  cases v with
  | none => rfl
  | some x => rfl

/-- The serialized PrivateKey attribute segment: the key tool output is
    nonempty by hypothesis, and the parser overwrites the public key with the
    derived one. -/
theorem parse_seg_pkey (env : CodecEnv) (v : Option Str) (rest : List LineType)
    (cfg : WireguardConfig) (tmp : Peer)
    (hk : ∀ k, v = some k → env.pubkeyOut (trimStr k) ≠ []) :
    parseLines env (attrT ("PrivateKey".data) v ++ rest) cfg true false tmp
      = parseLines env rest
          { cfg with interface :=
            { cfg.interface with
                public_key := updO (pkO env v) cfg.interface.public_key,
                private_key := updO v cfg.interface.private_key } }
          true false tmp := by
  cases v with
  | none => rfl
  | some k =>
    have hne := hk k rfl
    have hgen : generate_public_key env k
        = .ok (trimStr (env.pubkeyOut (trimStr k))) := by
      unfold generate_public_key
      rw [if_neg (by simpa [List.isEmpty_iff] using hne)]
    have hpk : pkO env (some k) = some (trimStr (env.pubkeyOut (trimStr k))) := by
      simp [pkO, hgen]
    have h0 : parseLines env (.Attribute ("PrivateKey".data) k :: rest) cfg true false tmp
        = (match generate_public_key env k with
           | .ok pk =>
             parseLines env rest
               { cfg with interface :=
                 { cfg.interface with public_key := some pk, private_key := some k } }
               true false tmp
           | .error e => .error (("Generating public key: ".data) ++ e ++ (".".data))) := rfl
    show parseLines env (.Attribute ("PrivateKey".data) k :: rest) cfg true false tmp = _
    rw [h0, hgen, hpk]
    rfl

/-- The serialized DNS attribute segment. -/
theorem parse_seg_dns (env : CodecEnv) (v : Option Str) (rest : List LineType)
    (cfg : WireguardConfig) (tmp : Peer) :
    parseLines env (attrT ("DNS".data) v ++ rest) cfg true false tmp
      = parseLines env rest
          { cfg with interface :=
            { cfg.interface with dns := updO v cfg.interface.dns } }
          true false tmp := by
  cases v with
  | none => rfl
  | some x => rfl

/-- The serialized Table attribute segment. -/
theorem parse_seg_table (env : CodecEnv) (v : Option Str) (rest : List LineType)
    (cfg : WireguardConfig) (tmp : Peer) :
    parseLines env (attrT ("Table".data) v ++ rest) cfg true false tmp
      = parseLines env rest
          { cfg with interface :=
            { cfg.interface with table := updO v cfg.interface.table } }
          true false tmp := by
  cases v with
  | none => rfl
  | some x => rfl

/-- The serialized MTU attribute segment. -/
theorem parse_seg_mtu (env : CodecEnv) (v : Option Str) (rest : List LineType)
    (cfg : WireguardConfig) (tmp : Peer) :
    parseLines env (attrT ("MTU".data) v ++ rest) cfg true false tmp
      = parseLines env rest
          { cfg with interface :=
            { cfg.interface with mtu := updO v cfg.interface.mtu } }
          true false tmp := by
  cases v with
  | none => rfl
  | some x => rfl

/-- The serialized PreUp attribute segment. -/
theorem parse_seg_preup (env : CodecEnv) (v : Option Str) (rest : List LineType)
    (cfg : WireguardConfig) (tmp : Peer) :
    parseLines env (attrT ("PreUp".data) v ++ rest) cfg true false tmp
      = parseLines env rest
          { cfg with interface :=
            { cfg.interface with pre_up := updO v cfg.interface.pre_up } }
          true false tmp := by
  cases v with
  | none => rfl
  | some x => rfl

/-- The serialized PostUp attribute segment. -/
theorem parse_seg_postup (env : CodecEnv) (v : Option Str) (rest : List LineType)
    (cfg : WireguardConfig) (tmp : Peer) :
    parseLines env (attrT ("PostUp".data) v ++ rest) cfg true false tmp
      = parseLines env rest
          { cfg with interface :=
            { cfg.interface with post_up := updO v cfg.interface.post_up } }
          true false tmp := by
  cases v with
  | none => rfl
  | some x => rfl

/-- The serialized PreDown attribute segment. -/
theorem parse_seg_predown (env : CodecEnv) (v : Option Str) (rest : List LineType)
    (cfg : WireguardConfig) (tmp : Peer) :
    parseLines env (attrT ("PreDown".data) v ++ rest) cfg true false tmp
      = parseLines env rest
          { cfg with interface :=
            { cfg.interface with pre_down := updO v cfg.interface.pre_down } }
          true false tmp := by
  cases v with
  | none => rfl
  | some x => rfl

/-- The serialized PostDown attribute segment. -/
theorem parse_seg_postdown (env : CodecEnv) (v : Option Str) (rest : List LineType)
    (cfg : WireguardConfig) (tmp : Peer) :
    parseLines env (attrT ("PostDown".data) v ++ rest) cfg true false tmp
      = parseLines env rest
          { cfg with interface :=
            { cfg.interface with post_down := updO v cfg.interface.post_down } }
          true false tmp := by
  cases v with
  | none => rfl
  | some x => rfl

/-- The serialized FwMark attribute segment. -/
theorem parse_seg_fwmark (env : CodecEnv) (v : Option Str) (rest : List LineType)
    (cfg : WireguardConfig) (tmp : Peer) :
    parseLines env (attrT ("FwMark".data) v ++ rest) cfg true false tmp
      = parseLines env rest
          { cfg with interface :=
            { cfg.interface with fwmark := updO v cfg.interface.fwmark } }
          true false tmp := by
  cases v with
  | none => rfl
  | some x => rfl

/-- The serialized peer Name comment segment inside a peer section. -/
theorem parse_peer_name (env : CodecEnv) (v : Option Str) (rest : List LineType)
    (cfg : WireguardConfig) (tmp : Peer) (hv : cleanO v) :
    parseLines env (commentT ("Name".data) v ++ rest) cfg false true tmp
      = parseLines env rest cfg false true { tmp with name := updO v tmp.name } := by
  cases v with
  | none => rfl
  | some x =>
    obtain ⟨hx1, hx2, _⟩ := hv
    obtain ⟨k0, v0, hsp, hk, hv0⟩ :=
      commentKV_parse 'N' ("ame".data) x (by decide) (by decide) (by decide) hx1 hx2
    show parseLines env
        (.Comment (commentContent ("Name".data) x) :: rest) cfg false true tmp = _
    simp only [parseLines, hsp, hk, hv0]
    rfl

/-- Running the plain attribute lines of a peer block when a further section
    follows: the last attribute sees the section header ahead, so the
    accumulated peer is pushed and the accumulator reset. -/
theorem parse_peer_attrs_sec (env : CodecEnv) (p : Peer) (s : Str)
    (r : List LineType) (cfg : WireguardConfig) (hattr : peerHasAttr p) :
    parseLines env
      (attrT ("AllowedIPs".data) p.allowed_ips
        ++ (attrT ("Endpoint".data) p.endpoint
        ++ (attrT ("PublicKey".data) p.public_key
        ++ (attrT ("PersistentKeepalive".data) p.persistent_keepalive
        ++ (.Section s :: r)))))
      cfg false true { name := p.name }
      = parseLines env (.Section s :: r)
          { cfg with peers := cfg.peers ++ [p] } false true {} := by
  obtain ⟨n, a, e, pk, kl⟩ := p
  cases a <;> cases e <;> cases pk <;> cases kl
  · exact absurd hattr (by simp [peerHasAttr])
  all_goals rfl

/-- Running the plain attribute lines of a peer block at the end of the
    input: the last attribute sees the end ahead, so the accumulated peer is
    pushed and parsing finishes. -/
theorem parse_peer_attrs_end (env : CodecEnv) (p : Peer) (cfg : WireguardConfig)
    (hattr : peerHasAttr p) :
    parseLines env
      (attrT ("AllowedIPs".data) p.allowed_ips
        ++ (attrT ("Endpoint".data) p.endpoint
        ++ (attrT ("PublicKey".data) p.public_key
        ++ attrT ("PersistentKeepalive".data) p.persistent_keepalive)))
      cfg false true { name := p.name }
      = .ok { cfg with peers := cfg.peers ++ [p] } := by
  obtain ⟨n, a, e, pk, kl⟩ := p
  cases a <;> cases e <;> cases pk <;> cases kl
  · exact absurd hattr (by simp [peerHasAttr])
  all_goals rfl

/-- One whole serialized peer block followed by a section header. -/
theorem parse_peer_block_sec (env : CodecEnv) (p : Peer) (s : Str)
    (r : List LineType) (cfg : WireguardConfig) (b1 b2 : Bool)
    (hn : cleanO p.name) (hattr : peerHasAttr p) :
    parseLines env (peerLex p ++ (.Section s :: r)) cfg b1 b2 {}
      = parseLines env (.Section s :: r)
          { cfg with peers := cfg.peers ++ [p] } false true {} := by
  have hshape : peerLex p ++ (.Section s :: r)
      = .Section ("Peer".data)
        :: (commentT ("Name".data) p.name
          ++ (attrT ("AllowedIPs".data) p.allowed_ips
          ++ (attrT ("Endpoint".data) p.endpoint
          ++ (attrT ("PublicKey".data) p.public_key
          ++ (attrT ("PersistentKeepalive".data) p.persistent_keepalive
          ++ (.Section s :: r)))))) := by
    simp [peerLex, List.append_assoc]
  rw [hshape, parseLines_section_peer, parse_peer_name env p.name _ cfg {} hn]
  have htmp : updO p.name ({} : Peer).name = p.name := updO_none p.name
  rw [htmp]
  exact parse_peer_attrs_sec env p s r cfg hattr

/-- One whole serialized peer block at the end of the input. -/
theorem parse_peer_block_end (env : CodecEnv) (p : Peer)
    (cfg : WireguardConfig) (b1 b2 : Bool)
    (hn : cleanO p.name) (hattr : peerHasAttr p) :
    parseLines env (peerLex p) cfg b1 b2 {}
      = .ok { cfg with peers := cfg.peers ++ [p] } := by
  have hshape : peerLex p
      = .Section ("Peer".data)
        :: (commentT ("Name".data) p.name
          ++ (attrT ("AllowedIPs".data) p.allowed_ips
          ++ (attrT ("Endpoint".data) p.endpoint
          ++ (attrT ("PublicKey".data) p.public_key
          ++ attrT ("PersistentKeepalive".data) p.persistent_keepalive)))) := by
    simp [peerLex, List.append_assoc]
  rw [hshape, parseLines_section_peer, parse_peer_name env p.name _ cfg {} hn]
  have htmp : updO p.name ({} : Peer).name = p.name := updO_none p.name
  rw [htmp]
  exact parse_peer_attrs_end env p cfg hattr

/-- The serialized peer blocks append exactly the original peer list. -/
theorem parse_peers (env : CodecEnv) (ps : List Peer) :
    ∀ (cfg : WireguardConfig) (b1 b2 : Bool),
      (∀ p ∈ ps, cleanPeer p ∧ peerHasAttr p) →
      parseLines env (catMap peerLex ps) cfg b1 b2 {}
        = .ok { cfg with peers := cfg.peers ++ ps } := by
  induction ps with
  | nil =>
    intro cfg b1 b2 _
    rw [List.append_nil]
    rfl
  | cons p qs ih =>
    intro cfg b1 b2 hps
    have hp := hps p (by simp)
    cases qs with
    | nil =>
      have h1 : catMap peerLex [p] = peerLex p ++ [] := by
        simp [catMap]
      rw [h1, List.append_nil, parse_peer_block_end env p cfg b1 b2 hp.1.1 hp.2]
    | cons q qs2 =>
      obtain ⟨r, hr⟩ : ∃ r, catMap peerLex (q :: qs2)
          = LineType.Section ("Peer".data) :: r := ⟨_, rfl⟩
      have h1 : catMap peerLex (p :: q :: qs2)
          = peerLex p ++ catMap peerLex (q :: qs2) := rfl
      rw [h1, hr, parse_peer_block_sec env p ("Peer".data) r cfg b1 b2 hp.1.1 hp.2,
        ← hr, ih { cfg with peers := cfg.peers ++ [p] } false true
          (fun p2 hp2 => hps p2 (List.mem_cons_of_mem p hp2))]
      simp

/-- The interface as parse_config reconstructs it from its own serialization:
    the comment-carried and attribute fields survive, the public key is
    rederived from the private key, and the binding-interface data — never
    emitted when the script bind flag cannot keep it, and never restored by
    the parser — is dropped. -/
def reparseIface (env : CodecEnv) (i : Interface) : Interface :=
  { name := i.name
    address := i.address
    listen_port := i.listen_port
    private_key := i.private_key
    public_key := pkO env i.private_key
    dns := i.dns
    table := i.table
    mtu := i.mtu
    pre_up := i.pre_up
    post_up := i.post_up
    pre_down := i.pre_down
    post_down := i.post_down
    fwmark := i.fwmark
    binding_iface := none
    routing_script_name := i.routing_script_name
    has_script_bind_iface := false }

/-- The config parse_config reconstructs from write_config output. -/
def reparse (env : CodecEnv) (c : WireguardConfig) : WireguardConfig :=
  { interface := reparseIface env c.interface, peers := c.peers }

/-- Parsing a serialized clean config yields its reparse image. -/
theorem parse_write (env : CodecEnv) (c : WireguardConfig)
    (hclean : cleanCfg c)
    (hbind : (zipKV ("# BindIface".data) c.interface.binding_iface).filter
      (fun _ => c.interface.has_script_bind_iface) = none)
    (hattr : ∀ p ∈ c.peers, peerHasAttr p)
    (haddr : ∀ a, c.interface.address = some a → is_ip_valid env (some a) = true)
    (hkey : ∀ k, c.interface.private_key = some k → env.pubkeyOut (trimStr k) ≠ []) :
    parse_config env (write_config c) = .ok (reparse env c) := by
  obtain ⟨hc1, hc2, hc3, hc4, hc5, hc6, hc7, hc8, hc9, hc10, hc11, hc12, hc13⟩ :=
    hclean.1
  unfold parse_config
  rw [lexConfig_write c hclean hbind]
  show parseLines env
      (.Section ("Interface".data)
        :: (ifaceLex c.interface ++ catMap peerLex c.peers)) {} false false {}
      = .ok (reparse env c)
  rw [parseLines_section_iface]
  rw [show ifaceLex c.interface ++ catMap peerLex c.peers
      = commentT ("Name".data) c.interface.name
        ++ (commentT ("RoutingScriptName".data) c.interface.routing_script_name
        ++ (attrT ("Address".data) c.interface.address
        ++ (attrT ("ListenPort".data) c.interface.listen_port
        ++ (attrT ("PrivateKey".data) c.interface.private_key
        ++ (attrT ("DNS".data) c.interface.dns
        ++ (attrT ("Table".data) c.interface.table
        ++ (attrT ("MTU".data) c.interface.mtu
        ++ (attrT ("PreUp".data) c.interface.pre_up
        ++ (attrT ("PostUp".data) c.interface.post_up
        ++ (attrT ("PreDown".data) c.interface.pre_down
        ++ (attrT ("PostDown".data) c.interface.post_down
        ++ (attrT ("FwMark".data) c.interface.fwmark
        ++ catMap peerLex c.peers))))))))))))
      from by simp [ifaceLex, List.append_assoc]]
  rw [parse_seg_iname env _ _ _ _ hc1]
  rw [parse_seg_rsn env _ _ _ _ hc2]
  rw [parse_seg_address env _ _ _ _ haddr]
  rw [parse_seg_lport]
  rw [parse_seg_pkey env _ _ _ _ hkey]
  rw [parse_seg_dns]
  rw [parse_seg_table]
  rw [parse_seg_mtu]
  rw [parse_seg_preup]
  rw [parse_seg_postup]
  rw [parse_seg_predown]
  rw [parse_seg_postdown]
  rw [parse_seg_fwmark]
  rw [parse_peers env c.peers _ true false
    (fun p hp => ⟨hclean.2 p hp, hattr p hp⟩)]
  simp only [updO_none]
  rfl

/-- Serializing the reparse image reproduces the text when the BindIface line
    was not emitted. -/
theorem write_reparse (env : CodecEnv) (c : WireguardConfig)
    (hbind : (zipKV ("# BindIface".data) c.interface.binding_iface).filter
      (fun _ => c.interface.has_script_bind_iface) = none) :
    write_config (reparse env c) = write_config c := by
  have hkvs : ifaceKvs (reparse env c).interface = ifaceKvs c.interface := by
    show ifaceKvs (reparseIface env c.interface) = ifaceKvs c.interface
    unfold ifaceKvs
    rw [hbind]
    rfl
  unfold write_config
  rw [hkvs]
  rfl

/-- C1 (corrected): for a config whose serialized fields are trim-stable and
    newline-free, whose serialization emits no BindIface line, whose peers
    each carry at least one plain attribute, whose address passes the IP
    check and whose private key derives a public key, parsing the serialized
    text succeeds with the reparse image and serializing that image
    reproduces the text exactly. -/
theorem C1_roundtrip (env : CodecEnv) (c : WireguardConfig)
    (hclean : cleanCfg c)
    (hbind : (zipKV ("# BindIface".data) c.interface.binding_iface).filter
      (fun _ => c.interface.has_script_bind_iface) = none)
    (hattr : ∀ p ∈ c.peers, peerHasAttr p)
    (haddr : ∀ a, c.interface.address = some a → is_ip_valid env (some a) = true)
    (hkey : ∀ k, c.interface.private_key = some k → env.pubkeyOut (trimStr k) ≠ []) :
    parse_config env (write_config c) = .ok (reparse env c)
    ∧ write_config (reparse env c) = write_config c :=
  ⟨parse_write env c hclean hbind hattr haddr hkey, write_reparse env c hbind⟩

/-- A concrete clean config exercising every round-tripping field and two
    peers. -/
def cfgRound : WireguardConfig :=
  { interface :=
      { name := some ("Home".data),
        address := some ("10.0.0.2/24".data),
        listen_port := some ("51820".data),
        private_key := some ("SECRET".data),
        public_key := some ("OLD".data),
        dns := some ("1.1.1.1".data),
        mtu := some ("1420".data),
        routing_script_name := some ("default".data) },
    peers := [ { name := some ("srv".data),
                 allowed_ips := some ("0.0.0.0/0".data),
                 endpoint := some ("1.2.3.4:51820".data),
                 public_key := some ("PEERKEY".data),
                 persistent_keepalive := some ("25".data) },
               { public_key := some ("K2".data) } ] }

/-- C1 witness: the round trip holds at the concrete config. -/
theorem C1_roundtrip_witness :
    cleanCfg cfgRound
    ∧ parse_config envAny (write_config cfgRound) = .ok (reparse envAny cfgRound)
    ∧ write_config (reparse envAny cfgRound) = write_config cfgRound := by
  refine ⟨by decide, ?_⟩
  exact C1_roundtrip envAny cfgRound (by decide) (by decide) (by decide)
    (fun a ha => by
      have h2 : ("10.0.0.2/24".data) = a :=
        Option.some.inj (show some ("10.0.0.2/24".data) = some a from ha)
      subst h2
      decide)
    (fun k hk => by
      have h2 : ("SECRET".data) = k :=
        Option.some.inj (show some ("SECRET".data) = some k from hk)
      subst h2
      decide)

end WgGui
